import Mathlib

/-!
# Verification of the veo3free dispatch and coordination layer

A shallow embedding of the task queue, worker registry, dispatch loop,
and worker protocol handlers of the veo3free repository
(`main.py`, `server/ws_routes.py`, `api_server_fastapi.py`), together
with proofs and refutations of the specification's claims about them.

Conventions of the embedding:
* Python dicts keyed by strings (the client registry, the chunk buffer)
  are modelled as insertion-ordered association lists; helper functions
  `dict_lookup` / `dict_insert` / `dict_erase` / `modify_client` mirror
  dict lookup, assignment, deletion and in-place field update.
* `datetime` values are modelled as `Nat` seconds; `isoformat` strings
  are kept as those numbers.  Elapsed-time tests `(now - t) > c` and
  `(now - t) < c` with `c > 0` agree with Python under truncated `Nat`
  subtraction, since a negative Python difference fails both strict
  comparisons exactly as the truncated-to-zero difference does.
* The Chinese status strings of the source are modelled by the closed
  enumeration `Status`:  等待中 ↦ `queued`, 处理中 ↦ `assigned`,
  已完成 ↦ `succeeded`, 失败 ↦ `failed`, 超时 ↦ `timed_out`,
  下载失败 ↦ `save_failed`.  Every status ever written by the source is
  one of these six strings.
* Filesystem facts (`Path.exists`) and thumbnail generation are passed
  in as explicit function parameters; performing a save is recorded in
  an effect list instead of writing to disk.  Socket sends are recorded
  in an effect list of `(client_id, task_id)` pairs, and whether a send
  raises is a Boolean parameter of the step.
-/

namespace Veo3

/-- Status of a task.  Models the closed set of Chinese status strings
written by `main.py` and `server/ws_routes.py` (mapping in the file
header). -/
inductive Status where
| queued
| assigned
| succeeded
| failed
| timed_out
| save_failed
deriving DecidableEq, Repr

/-- A task record.  Models the task dict built in
`TaskManager.add_task` (main.py:222-237) together with the keys added
later in the lifecycle (`saved_path`, `output_dir_path`,
`preview_base64`), modelled as `Option` fields that start as `none`.
The `aspect` field models the `aspect_ratio` key. -/
structure Task where
  id : String
  prompt : String
  status : Status
  status_detail : String
  file_ext : String
  output_dir : Option String
  client_id : Option String
  task_type : String
  aspect : String
  resolution : String
  reference_images : List String
  start_time : Option Nat
  end_time : Option Nat
  import_row_number : Option String
  saved_path : Option String
  output_dir_path : Option String
  preview_base64 : Option String
deriving DecidableEq, Repr

/-- A registered worker.  Models the per-client dict built in
`TaskManager.register_client` (main.py:147-154); the websocket handle
is not part of the state (sends are modelled as effects). -/
structure ClientInfo where
  url : String
  busy : Bool
  task_id : Option String
  page_number : Nat
  last_task_end : Option Nat
deriving DecidableEq, Repr

/-- The mutable state of `TaskManager` (main.py:131-136). -/
structure TMState where
  tasks : List Task
  current_index : Nat
  is_running : Bool
  clients : List (String × ClientInfo)
  next_page_number : Nat
deriving DecidableEq, Repr

/-- The initial `TaskManager` state (main.py:131-136). -/
def tm_init : TMState :=
  { tasks := [], current_index := 0, is_running := false, clients := [], next_page_number := 1 }

/-- Dict lookup on an insertion-ordered association list (first match). -/
def dict_lookup {β : Type} : List (String × β) → String → Option β
| [], _ => none
| (k, v) :: rest, key => if k = key then some v else dict_lookup rest key

/-- Dict assignment `d[k] = v`: replace the value at an existing key in
place, else append a new entry (Python dicts preserve insertion order). -/
def dict_insert {β : Type} : List (String × β) → String → β → List (String × β)
| [], key, v => [(key, v)]
| (k, w) :: rest, key, v =>
  if k = key then (k, v) :: rest else (k, w) :: dict_insert rest key v

/-- Dict deletion `del d[k]` (removes the entry with that key). -/
def dict_erase {β : Type} : List (String × β) → String → List (String × β)
| [], _ => []
| (k, v) :: rest, key => if k = key then rest else (k, v) :: dict_erase rest key

/-- In-place mutation of the entry at a key, e.g.
`self.clients[client_id]['busy'] = True`. Identity when the key is
absent (call sites guard with `if client_id in self.clients`). -/
def modify_client (cid : String) (f : ClientInfo → ClientInfo) :
    List (String × ClientInfo) → List (String × ClientInfo)
| [] => []
| (k, v) :: rest =>
  if k = cid then (k, f v) :: rest else (k, v) :: modify_client cid f rest

/-- Python truthiness of an `Optional[str]`: truthy iff present and
non-empty. -/
def truthy_str : Option String → Bool
| none => false
| some x => x ≠ ""

/-- TASK_TIMEOUT_SECONDS (main.py:128). -/
def TASK_TIMEOUT_SECONDS : Nat := 600

/-- CLIENT_COOLDOWN_SECONDS (main.py:129). -/
def CLIENT_COOLDOWN_SECONDS : Nat := 3

/-- The process-wide output root (main.py:69, development mode
`Path("output")`); paths are modelled as plain strings. -/
def OUTPUT_DIR : String := "output"

/-- Whitespace characters stripped by Python `str.strip()` (the ASCII
ones; the source's prompts make no use of the rarer unicode spaces). -/
def is_space (c : Char) : Bool :=
  c = ' ' ∨ c = '\t' ∨ c = '\n' ∨ c = '\r' ∨ c = '\x0b' ∨ c = '\x0c'

/-- Python `str.strip()`: drop whitespace from both ends. -/
def py_strip (s : String) : String :=
  String.mk (((s.toList.dropWhile is_space).reverse.dropWhile is_space).reverse)

/-- Whether one character list begins with another. -/
def chars_begin : List Char → List Char → Bool
| _, [] => true
| [], _ :: _ => false
| c :: cs, d :: ds => c = d && chars_begin cs ds

/-- Whether one character list occurs inside another. -/
def chars_contain : List Char → List Char → Bool
| [], needle => needle.isEmpty
| c :: cs, needle => chars_begin (c :: cs) needle || chars_contain cs needle

/-- Substring test `needle in hay` (Python `in` on strings). -/
def str_contains (hay needle : String) : Bool :=
  chars_contain hay.toList needle.toList

/-- ASCII lower-casing of a character (Python `str.lower()` on the
ASCII file extensions this model handles). -/
def lower_char (c : Char) : Char :=
  if 'A' ≤ c ∧ c ≤ 'Z' then Char.ofNat (c.toNat + 32) else c

/-- Python `str.lower()`. -/
def str_lower (s : String) : String :=
  String.mk (s.toList.map lower_char)

/-- Models `pathlib.Path.is_absolute()` on POSIX paths. -/
def path_is_absolute (p : String) : Bool :=
  match p.toList with
  | '/' :: _ => true
  | _ => false

/-- Output-directory resolution shared by main.py:572-580 and
ws_routes.py:67-73: a truthy relative dir is joined under the base, a
truthy absolute dir is used as-is, otherwise the base is used. -/
def resolve_output_dir (base : String) (od : Option String) : String :=
  match od with
  | some d => if d ≠ "" then (if path_is_absolute d then d else base ++ "/" ++ d) else base
  | none => base

/-- TaskManager.register_client (main.py:138-156): evict every client
with the same page url, then insert a fresh idle entry under an id
derived from the post-eviction size and the clock, allocating the next
page number.  Returns (state, client_id, page_number). -/
def register_client (now : Nat) (page_url : String) (s : TMState) :
    TMState × String × Nat :=
  let remaining := s.clients.filter (fun p => p.2.url ≠ page_url)
  let client_id := "c" ++ toString remaining.length ++ "_" ++ toString (now % 10000)
  let info : ClientInfo :=
    { url := page_url, busy := false, task_id := none,
      page_number := s.next_page_number, last_task_end := none }
  ({ s with clients := dict_insert remaining client_id info,
            next_page_number := s.next_page_number + 1 },
   client_id, s.next_page_number)

/-- TaskManager.remove_client (main.py:158-168): if the client is
registered and holds a truthy task id, every task with that id that is
currently assigned (处理中) is reset to queued (等待中); then the client
entry is deleted. -/
def remove_client (client_id : String) (s : TMState) : TMState :=
  match dict_lookup s.clients client_id with
  | none => s
  | some info =>
    let tasks' :=
      match info.task_id with
      | some tid =>
        if tid ≠ "" then
          s.tasks.map (fun t =>
            if t.id = tid ∧ t.status = .assigned then { t with status := .queued } else t)
        else s.tasks
      | none => s.tasks
    { s with tasks := tasks', clients := dict_erase s.clients client_id }

/-- TaskManager.get_idle_client (main.py:170-181): first registered
client that is not busy and whose cooldown (3 s since its last task
end, when recorded) has elapsed. -/
def get_idle_client (now : Nat) :
    List (String × ClientInfo) → Option (String × ClientInfo)
| [] => none
| (cid, info) :: rest =>
  if info.busy then get_idle_client now rest
  else
    match info.last_task_end with
    | some last_end =>
      if now - last_end < CLIENT_COOLDOWN_SECONDS then get_idle_client now rest
      else some (cid, info)
    | none => some (cid, info)

/-- Set `client_id` on the first task with the given id (the
for/break loop of main.py:187-190). -/
def set_first_client (tid cid : String) : List Task → List Task
| [] => []
| t :: rest =>
  if t.id = tid then { t with client_id := some cid } :: rest
  else t :: set_first_client tid cid rest

/-- The field updates of mark_client_busy (main.py:185-186). -/
def busy_update (task_id : String) (v : ClientInfo) : ClientInfo :=
  { v with busy := true, task_id := some task_id }

/-- The field updates of mark_client_idle (main.py:194-196). -/
def idle_update (now : Nat) (v : ClientInfo) : ClientInfo :=
  { v with busy := false, task_id := none, last_task_end := some now }

/-- TaskManager.mark_client_busy (main.py:183-190): when the client is
registered, set its busy flag and assigned task id, and record the
client id on the first task with that id. -/
def mark_client_busy (client_id task_id : String) (s : TMState) : TMState :=
  if (dict_lookup s.clients client_id).isSome then
    { s with
      clients := modify_client client_id (busy_update task_id) s.clients,
      tasks := set_first_client task_id client_id s.tasks }
  else s

/-- TaskManager.mark_client_idle (main.py:192-196): when the client is
registered, clear its busy flag and task binding and stamp the cooldown
timestamp. -/
def mark_client_idle (now : Nat) (client_id : String) (s : TMState) : TMState :=
  if (dict_lookup s.clients client_id).isSome then
    { s with clients := modify_client client_id (idle_update now) s.clients }
  else s

/-- Set `status_detail` on the first task with the given id
(TaskManager.update_task_status_detail, main.py:203-208). -/
def update_task_status_detail (tid detail : String) : List Task → List Task
| [] => []
| t :: rest =>
  if t.id = tid then { t with status_detail := detail } :: rest
  else t :: update_task_status_detail tid detail rest

/-- The task id built at main.py:219: derived from the task count and
the clock (the `%H%M%S%f` timestamp is modelled by the numeric clock
value). -/
def new_task_id (count now : Nat) : String :=
  "task_" ++ toString count ++ "_" ++ toString now

/-- TaskManager.add_task (main.py:210-240), see the comment on
`new_task_id`: reject a blank prompt; force the reference-image list
empty for "Text to Video"; derive the file extension from the task
type; append a fresh queued task. -/
def add_task (now : Nat) (prompt task_type aspect resolution : String)
    (reference_images : Option (List String)) (output_dir : Option String)
    (import_row_number : Option String) (s : TMState) : TMState × Option Task :=
  let p := py_strip prompt
  if p = "" then (s, none)
  else
    let refs := if task_type = "Text to Video" then [] else reference_images.getD []
    let task_id := new_task_id s.tasks.length now
    let ext := if str_contains task_type "Video" then ".mp4" else ".png"
    let t : Task :=
      { id := task_id, prompt := p, status := .queued, status_detail := "",
        file_ext := ext, output_dir := output_dir, client_id := none,
        task_type := task_type, aspect := aspect, resolution := resolution,
        reference_images := refs, start_time := none, end_time := none,
        import_row_number := import_row_number, saved_path := none,
        output_dir_path := none, preview_base64 := none }
    ({ s with tasks := s.tasks ++ [t] }, some t)

/-- Fuel-driven body of `get_next_task`; the fuel starts at
`tasks.length - i`, so it never runs out on the in-range branch. -/
def gnt_go (ts : List Task) : Nat → Nat → Option Task × Nat
| 0, i => (none, i)
| fuel + 1, i =>
  match ts[i]? with
  | some t => if t.status = .queued then (some t, i) else gnt_go ts fuel (i + 1)
  | none => (none, i)

/-- TaskManager.get_next_task (main.py:242-248): scan forward from the
cursor, advancing it past non-queued entries, and return the first
queued task together with the final cursor value. -/
def get_next_task (ts : List Task) (i : Nat) : Option Task × Nat :=
  gnt_go ts (ts.length - i) i

/-- Whether one sweep times a task out (main.py:255-258): currently
assigned, has a truthy start time, and more than TASK_TIMEOUT_SECONDS
elapsed. -/
def task_timed_out (now : Nat) (t : Task) : Bool :=
  if t.status = .assigned then
    match t.start_time with
    | some st => now - st > TASK_TIMEOUT_SECONDS
    | none => false
  else false

/-- The status detail written by the timeout sweep (main.py:261). -/
def timeout_detail : String :=
  "任务超时（超过" ++ toString (TASK_TIMEOUT_SECONDS / 60) ++ "分钟）"

/-- The timed-out version of a task (main.py:259-261). -/
def stamp_timed_out (now : Nat) (t : Task) : Task :=
  { t with status := .timed_out, end_time := some now, status_detail := timeout_detail }

/-- Release a worker without stamping its cooldown (the inline
assignments of main.py:266-267). -/
def release_info (v : ClientInfo) : ClientInfo :=
  { v with busy := false, task_id := none }

/-- Body of the timeout sweep: walk the task list, timing out stale
assigned tasks and releasing their recorded clients as it goes.
Returns (new tasks, new clients, timed-out tasks). -/
def sweep_go (now : Nat) :
    List Task → List (String × ClientInfo) →
    List Task × List (String × ClientInfo) × List Task
| [], cs => ([], cs, [])
| t :: ts, cs =>
  if task_timed_out now t then
    let t' := stamp_timed_out now t
    let cs' :=
      match t.client_id with
      | some cid =>
        if cid ≠ "" ∧ (dict_lookup cs cid).isSome then modify_client cid release_info cs
        else cs
      | none => cs
    let r := sweep_go now ts cs'
    (t' :: r.1, r.2.1, t' :: r.2.2)
  else
    let r := sweep_go now ts cs
    (t :: r.1, r.2.1, r.2.2)

/-- TaskManager.check_timeout_tasks (main.py:250-269). -/
def check_timeout_tasks (now : Nat) (s : TMState) : TMState × List Task :=
  let r := sweep_go now s.tasks s.clients
  ({ s with tasks := r.1, clients := r.2.1 }, r.2.2)

/-- TaskManager.clear_tasks (main.py:271-276). -/
def clear_tasks (s : TMState) : TMState :=
  { s with tasks := [], current_index := 0, is_running := false }

/-- Api.start_execution (main.py:513-533): refuses when no client is
connected or the task list is empty, else raises the running flag (the
spawned coroutine is modelled by separate `dispatch_step` events; the
event-loop handle is taken as ready). -/
def start_execution (s : TMState) : TMState :=
  if s.clients.length = 0 then s
  else if s.tasks.length = 0 then s
  else { s with is_running := true }

/-- Api.stop_execution (main.py:535-537). -/
def stop_execution (s : TMState) : TMState :=
  { s with is_running := false }

/-- Whether a task's status is one of the retryable failure statuses
失败 / 超时 / 下载失败 (main.py:398). -/
def retryable (st : Status) : Bool :=
  st = .failed ∨ st = .timed_out ∨ st = .save_failed

/-- Replace the task at an index (mutation of the dict object fetched
at that index); identity out of range. -/
def modify_task_at (ts : List Task) (i : Nat) (f : Task → Task) : List Task :=
  match ts[i]? with
  | some t => ts.set i (f t)
  | none => ts

/-- Api.retry_task (main.py:392-418): reject an out-of-range index or a
non-failed status without any state change; else reset the task to
queued, clear its detail, timing and worker binding, rewind the cursor
when it has advanced past the task, and start execution when stopped.
Returns (state, success flag). -/
def retry_task (task_index : Int) (s : TMState) : TMState × Bool :=
  if task_index < 0 ∨ (s.tasks.length : Int) ≤ task_index then (s, false)
  else
    let i := task_index.toNat
    match s.tasks[i]? with
    | none => (s, false)
    | some t =>
      if retryable t.status then
        let t' := { t with status := .queued, status_detail := "",
                           start_time := none, end_time := none, client_id := none }
        let s1 := { s with tasks := s.tasks.set i t',
                           current_index := if i < s.current_index then i else s.current_index }
        ((if s1.is_running then s1 else start_execution s1), true)
      else (s, false)

/-- The reset applied to each failed task by retry_all_failed
(main.py:433-438). -/
def reset_failed (t : Task) : Task :=
  if retryable t.status then
    { t with status := .queued, status_detail := "", start_time := none,
             end_time := none, client_id := none }
  else t

/-- Api.retry_all_failed (main.py:420-452): reset every task in a
failure status, rewind the cursor to the earliest one, start execution
when stopped.  Returns (state, success flag). -/
def retry_all_failed (s : TMState) : TMState × Bool :=
  let failed_indices :=
    (List.range s.tasks.length).filter (fun i =>
      match s.tasks[i]? with
      | some t => retryable t.status
      | none => false)
  if failed_indices.isEmpty then (s, false)
  else
    let min_index := failed_indices.foldl min s.tasks.length
    let s1 := { s with tasks := s.tasks.map reset_failed,
                       current_index := if min_index < s.current_index then min_index
                                        else s.current_index }
    ((if s1.is_running then s1 else start_execution s1), true)

/-- Python `list.insert(i, x)` = `l[:i] + [x] + l[i:]` with the index
clamped to the length. -/
def list_insert_at {α : Type} (i : Nat) (x : α) (l : List α) : List α :=
  l.take i ++ x :: l.drop i

/-- Api.run_single_task (main.py:459-485): reject an out-of-range
index, a non-queued task, or an empty registry; else move the task to
the current cursor position and start execution when stopped. -/
def run_single_task (task_index : Int) (s : TMState) : TMState × Bool :=
  if task_index < 0 ∨ (s.tasks.length : Int) ≤ task_index then (s, false)
  else
    let i := task_index.toNat
    match s.tasks[i]? with
    | none => (s, false)
    | some t =>
      if t.status ≠ .queued then (s, false)
      else if s.clients.length = 0 then (s, false)
      else
        let tasks' :=
          if i ≠ s.current_index then
            list_insert_at s.current_index t (s.tasks.take i ++ s.tasks.drop (i + 1))
          else s.tasks
        let s1 := { s with tasks := tasks' }
        ((if s1.is_running then s1 else start_execution s1), true)

/-- The deterministic output file path which the dispatch loop probes
for an imported task (main.py:571-583): the resolved output directory
joined with the row number and the file extension. -/
def skip_filepath (t : Task) : String :=
  resolve_output_dir OUTPUT_DIR t.output_dir ++ "/" ++ t.import_row_number.getD "" ++ t.file_ext

/-- Whether the skip-if-exists short-circuit fires for a task
(main.py:572-585): the task carries a truthy import row number and the
deterministic output file already exists. -/
def skip_file_exists (file_exists : String → Bool) (t : Task) : Bool :=
  match t.import_row_number with
  | some rn => if rn = "" then false else file_exists (skip_filepath t)
  | none => false

/-- The status detail written by the skip-if-exists branch
(main.py:590). -/
def skip_detail : String := "文件已存在，跳过生成"

/-- The task update applied by the skip-if-exists branch
(main.py:586-596).  `thumb` models `ImageProcessor.generate_thumbnail`
(its `None` result and the empty string stored by the except-branch are
both values of the parameter). -/
def stamp_skipped (now : Nat) (thumb : String → Option String) (t : Task) : Task :=
  let dir := resolve_output_dir OUTPUT_DIR t.output_dir
  let fp := skip_filepath t
  { t with status := .succeeded, end_time := some now, saved_path := some fp,
           output_dir_path := some dir, status_detail := skip_detail,
           preview_base64 :=
             if t.file_ext = ".png" ∨ t.file_ext = ".jpg" then thumb fp
             else t.preview_base64 }

/-- One iteration of the dispatch loop `Api._execute_tasks`
(main.py:539-641), entered only while the running flag holds:
run the timeout sweep; fetch the next queued task, advancing the
cursor; when the queue is drained and no worker is busy, drop the
running flag (the loop breaks); wait when no client is connected or
idle; take the skip-if-exists short-circuit for imported tasks whose
output file already exists; otherwise assign the task to the chosen
worker and send it, reverting the task to queued and the worker to idle
when the send raises.  `file_exists` models `Path.exists`, `thumb`
models thumbnail generation, `send_ok` tells whether the transport send
succeeds.  The second component lists the `(client_id, task_id)`
messages that were delivered. -/
def dispatch_step (now : Nat) (file_exists : String → Bool)
    (thumb : String → Option String) (send_ok : Bool) (s : TMState) :
    TMState × List (String × String) :=
  if s.is_running = false then (s, [])
  else
    let swept := (check_timeout_tasks now s).1
    let gp := get_next_task swept.tasks swept.current_index
    let s2 := { swept with current_index := gp.2 }
    match gp.1 with
    | none =>
      -- main.py:549-555: queue drained; break (clearing the running
      -- flag, main.py:640) when no worker is busy, else keep waiting.
      if s2.clients.any (fun p => p.2.busy) then (s2, [])
      else ({ s2 with is_running := false }, [])
    | some task =>
      if s2.clients.length = 0 then (s2, [])
      else
        match get_idle_client now s2.clients with
        | none => (s2, [])
        | some (cid, _cinfo) =>
          if skip_file_exists file_exists task then
            let i := s2.current_index
            ({ s2 with tasks := modify_task_at s2.tasks i (stamp_skipped now thumb),
                       current_index := i + 1 }, [])
          else
            -- main.py:601-636: assign, bind, advance, send.
            let i := s2.current_index
            let s3 := { s2 with
              tasks := modify_task_at s2.tasks i
                (fun t => { t with status := .assigned, start_time := some now }) }
            let s4 := mark_client_busy cid task.id s3
            let s5 := { s4 with current_index := s4.current_index + 1 }
            if send_ok then (s5, [(cid, task.id)])
            else
              -- main.py:632-636: revert on transport failure.
              let s6 := { s5 with
                tasks := modify_task_at s5.tasks i (fun t => { t with status := .queued }) }
              (mark_client_idle now cid s6, [])

/-- The task-creation and best-effort immediate dispatch portion of the
`/v1/chat/completions` handler (api_server_fastapi.py:389-433), after
request validation: refuse with no connected client; enqueue; when an
idle worker exists, assign and send at once, reverting the task to
queued and the worker to idle when the send raises; finally start the
dispatch loop when it is stopped.  Returns (state, created task id,
delivered messages). -/
def chat_create_and_dispatch (now : Nat) (send_ok : Bool)
    (prompt task_type aspect resolution : String) (images : List String)
    (s : TMState) : TMState × Option String × List (String × String) :=
  if s.clients.length = 0 then (s, none, [])
  else
    let r := add_task now prompt task_type aspect resolution (some images) none none s
    match r.2 with
    | none => (r.1, none, [])
    | some task =>
      let s1 := r.1
      let i := s1.tasks.length - 1
      let after := fun (sx : TMState) =>
        if sx.is_running then sx else start_execution sx
      match get_idle_client now s1.clients with
      | none => (after s1, some task.id, [])
      | some (cid, _cinfo) =>
        let s2 := { s1 with
          tasks := modify_task_at s1.tasks i
            (fun t => { t with status := .assigned, start_time := some now }) }
        let s3 := mark_client_busy cid task.id s2
        if send_ok then (after s3, some task.id, [(cid, task.id)])
        else
          let s4 := { s3 with
            tasks := modify_task_at s3.tasks i (fun t => { t with status := .queued }) }
          (after (mark_client_idle now cid s4), some task.id, [])

/-- Set the first task with the given id to 失败 with the error text as
detail (the for/break loop of ws_routes.py:177-182). -/
def fail_first_task (now : Nat) (tid err : String) : List Task → List Task
| [] => []
| t :: rest =>
  if t.id = tid then
    { t with status := .failed, status_detail := err, end_time := some now } :: rest
  else t :: fail_first_task now tid err rest

/-- The `result` branch of the websocket loop (ws_routes.py:172-184):
when both the error and the task id are truthy, fail the first task
with that id; in every case mark the sender idle (`client_id` is the
sender's registered id, always truthy after registration). -/
def handle_result (now : Nat) (client_id : String)
    (task_id error : Option String) (s : TMState) : TMState :=
  let s1 :=
    if truthy_str error ∧ truthy_str task_id then
      { s with tasks := fail_first_task now (task_id.getD "") (error.getD "") s.tasks }
    else s
  mark_client_idle now client_id s1

/-- The `status` branch of the websocket loop (ws_routes.py:186-192):
when the sender is registered and bound to a truthy task id, update
that task's status detail. -/
def handle_status (client_id status_msg : String) (s : TMState) : TMState :=
  match dict_lookup s.clients client_id with
  | some info =>
    match info.task_id with
    | some tid =>
      if tid ≠ "" then { s with tasks := update_task_status_detail tid status_msg s.tasks }
      else s
    | none => s
  | none => s

/-- Helper for the collision loop of ws_routes.py:85-89: append an
increasing numeric suffix until the path is free, bounded by fuel
(the claims never reach this loop).  Returns (filename, filepath). -/
def fresh_filename_go (file_exists : String → Bool) (dir ts ext : String) :
    Nat → Nat → String × String
| counter, fuel =>
  let filename := ts ++ "_" ++ toString counter ++ ext
  let filepath := dir ++ "/" ++ filename
  match fuel with
  | 0 => (filename, filepath)
  | fuel' + 1 =>
    if file_exists filepath then fresh_filename_go file_exists dir ts ext (counter + 1) fuel'
    else (filename, filepath)

/-- Timestamp-based output filename with numeric suffix on collision
(ws_routes.py:82-89). -/
def fresh_filename (file_exists : String → Bool) (dir ts ext : String)
    (fuel : Nat) : String × String :=
  let filename := ts ++ ext
  let filepath := dir ++ "/" ++ filename
  if file_exists filepath then fresh_filename_go file_exists dir ts ext 1 fuel
  else (filename, filepath)

/-- Index of the first task with the given id. -/
def first_task_idx (tid : String) : List Task → Option Nat
| [] => none
| t :: rest =>
  if t.id = tid then some 0 else (first_task_idx tid rest).map (· + 1)

/-- `_handle_image_result` (ws_routes.py:62-112): find the task for a
complete binary payload; resolve its output directory; build the
deterministic filename for imported tasks or a fresh timestamp-based
one; attempt the save (`save_ok` models `_save_base64_file`
succeeding; the attempted filepath is recorded in the effect list);
on success mark the task 已完成 with saved path and preview, on failure
mark it 下载失败; in both cases, and also when no task matches, mark the
sender idle.  The base64 payload itself only feeds the save, so it is
not a parameter. -/
def handle_image_result (now : Nat) (output_dir_base : String)
    (file_exists : String → Bool) (thumb : String → Option String)
    (save_ok : Bool) (fuel : Nat) (client_id task_id : String)
    (s : TMState) : TMState × List String :=
  match first_task_idx task_id s.tasks with
  | none => (mark_client_idle now client_id s, [])
  | some i =>
    match s.tasks[i]? with
    | none => (mark_client_idle now client_id s, [])
    | some task =>
      let p := resolve_output_dir output_dir_base task.output_dir
      let ext := task.file_ext
      let fp :=
        if truthy_str task.import_row_number then
          p ++ "/" ++ task.import_row_number.getD "" ++ ext
        else (fresh_filename file_exists p (toString now) ext fuel).2
      let task' :=
        if save_ok then
          { task with status := .succeeded, end_time := some now,
                      saved_path := some fp, output_dir_path := some p,
                      preview_base64 :=
                        if str_lower ext = ".png" ∨ str_lower ext = ".jpg" then thumb fp
                        else task.preview_base64 }
        else { task with status := .save_failed, end_time := some now }
      (mark_client_idle now client_id { s with tasks := s.tasks.set i task' }, [fp])

/-- The per-connection chunk reassembly map of `register_ws_routes`
(ws_routes.py:116): task id ↦ (chunk index ↦ base64 fragment).  Chunk
indices are `int(...)` values, hence `Int`. -/
abbrev ChunkBuffer : Type := List (String × List (Int × String))

/-- Dict operations over `Int` keys for the inner per-task map. -/
def idict_lookup : List (Int × String) → Int → Option String
| [], _ => none
| (k, v) :: rest, key => if k = key then some v else idict_lookup rest key

/-- Dict assignment over `Int` keys (replace in place or append). -/
def idict_insert : List (Int × String) → Int → String → List (Int × String)
| [], key, v => [(key, v)]
| (k, w) :: rest, key, v =>
  if k = key then (k, v) :: rest else (k, w) :: idict_insert rest key v

/-- Look up every chunk index `0 .. total-1`; `none` models the
`KeyError` a missing index raises during the join. -/
def lookup_all (m : List (Int × String)) : List Int → Option (List String)
| [] => some []
| i :: is =>
  match idict_lookup m i with
  | some v => (lookup_all m is).map (fun r => v :: r)
  | none => none

/-- The chunk indices `0 .. total-1` of the join (ws_routes.py:159). -/
def int_range (total : Int) : List Int :=
  (List.range total.toNat).map Int.ofNat

/-- Join the buffered chunks in index order (ws_routes.py:159). -/
def join_chunks (m : List (Int × String)) (total : Int) : Option String :=
  (lookup_all m (int_range total)).map String.join

/-- Outcome of one `image_chunk` message. -/
inductive ChunkOutcome where
| pending
| completed (payload : String)
| key_error
deriving DecidableEq, Repr

/-- The `image_chunk` branch of the websocket loop
(ws_routes.py:145-162): ignore messages without a truthy task id;
store the fragment under its index; when the declared total is positive
and the per-task map has exactly that many entries, join the fragments
in index order, delete the task's buffer, and hand the payload on as a
complete binary payload (`completed`); a missing index during the join
raises (`key_error`), leaving the buffer entry in place. -/
def image_chunk_step (buf : ChunkBuffer) (task_id : Option String)
    (chunk_index total_chunks : Int) (data : Option String) :
    ChunkBuffer × ChunkOutcome :=
  match task_id with
  | none => (buf, .pending)
  | some tid =>
    if tid = "" then (buf, .pending)
    else
      let m := (dict_lookup buf tid).getD []
      let m' := idict_insert m chunk_index (data.getD "")
      let buf' := dict_insert buf tid m'
      if total_chunks > 0 ∧ (m'.length : Int) = total_chunks then
        match join_chunks m' total_chunks with
        | some full => (dict_erase buf' tid, .completed full)
        | none => (buf', .key_error)
      else (buf', .pending)

/-- Deliver a sequence of chunks for one task: for each index `i` in
`order`, process the message
`{task_id, chunk_index := i, total_chunks := n, data := payloads i}`,
collecting each message's outcome. -/
def deliver_chunks (buf : ChunkBuffer) (tid : String) (n : Nat)
    (payloads : Nat → String) : List Nat → ChunkBuffer × List ChunkOutcome
| [] => (buf, [])
| i :: rest =>
  let r := image_chunk_step buf (some tid) (i : Int) (n : Int) (some (payloads i))
  let r' := deliver_chunks r.1 tid n payloads rest
  (r'.1, r.2 :: r'.2)

/-- The first half of the spec's bijection invariant: a worker's busy
flag is set iff some task id is assigned to it. -/
def busy_iff (cs : List (String × ClientInfo)) : Prop :=
  ∀ p ∈ cs, p.2.busy = p.2.task_id.isSome

/-- The second half of the spec's bijection invariant: at most one
registered worker holds any given task id. -/
def at_most_one_holder (cs : List (String × ClientInfo)) : Prop :=
  ∀ p ∈ cs, ∀ q ∈ cs, p.2.task_id.isSome → p.2.task_id = q.2.task_id → p.1 = q.1

/-- State-level form of `busy_iff`. -/
def BusyIffAssigned (s : TMState) : Prop := busy_iff s.clients

/-- State-level form of `at_most_one_holder`. -/
def AtMostOneHolder (s : TMState) : Prop := at_most_one_holder s.clients

/-- No queued task's id is still recorded on any worker — the
side condition under which dispatching preserves uniqueness. -/
def queued_unheld (cs : List (String × ClientInfo)) (ts : List Task) : Prop :=
  ∀ p ∈ cs, ∀ t ∈ ts, p.2.task_id = some t.id → t.status ≠ .queued

/-- State-level form of `queued_unheld`. -/
def QueuedUnheld (s : TMState) : Prop := queued_unheld s.clients s.tasks

/-- The registry's keys are distinct (automatic for a Python dict). -/
def ClientKeysNodup (s : TMState) : Prop := (s.clients.map Prod.fst).Nodup

/-- One externally triggered transition of the shared TaskManager
state: a worker connection registering or dropping, a websocket
message being handled, an API call, or one iteration of the dispatch
loop.  Function parameters model the filesystem, thumbnailing and
transport outcomes of the step.  The `image_chunk` branch touches the
TaskManager state only through `_handle_image_result` on completion,
so it is covered by the `ws_image` event. -/
inductive Step : TMState → TMState → Prop where
| register (now : Nat) (url : String) (s : TMState) :
    Step s (register_client now url s).1
| disconnect (cid : String) (s : TMState) :
    Step s (remove_client cid s)
| add (now : Nat) (prompt ty ar res : String) (refs : Option (List String))
    (od rn : Option String) (s : TMState) :
    Step s (add_task now prompt ty ar res refs od rn s).1
| dispatch (now : Nat) (fe : String → Bool) (th : String → Option String)
    (ok : Bool) (s : TMState) :
    Step s (dispatch_step now fe th ok s).1
| chat (now : Nat) (ok : Bool) (prompt ty ar res : String)
    (imgs : List String) (s : TMState) :
    Step s (chat_create_and_dispatch now ok prompt ty ar res imgs s).1
| ws_result (now : Nat) (cid : String) (tid err : Option String) (s : TMState) :
    Step s (handle_result now cid tid err s)
| ws_image (now : Nat) (base : String) (fe : String → Bool)
    (th : String → Option String) (save_ok : Bool) (fuel : Nat)
    (cid tid : String) (s : TMState) :
    Step s (handle_image_result now base fe th save_ok fuel cid tid s).1
| ws_status (cid msg : String) (s : TMState) :
    Step s (handle_status cid msg s)
| retry (idx : Int) (s : TMState) :
    Step s (retry_task idx s).1
| retry_all (s : TMState) :
    Step s (retry_all_failed s).1
| run_single (idx : Int) (s : TMState) :
    Step s (run_single_task idx s).1
| clear (s : TMState) :
    Step s (clear_tasks s)
| start (s : TMState) :
    Step s (start_execution s)
| stop (s : TMState) :
    Step s (stop_execution s)

/-- A TaskManager state the program can reach from startup. -/
def Reachable (s : TMState) : Prop :=
  Relation.ReflTransGen Step tm_init s

/-- A filesystem on which no probed path exists. -/
def fs_empty : String → Bool := fun _ => false

/-- A thumbnailer whose calls all fail (return `None`). -/
def thumb_none : String → Option String := fun _ => none

/-- Counterexample trace for the uniqueness half of the bijection
invariant, step 1: worker A registers. -/
def cx_s1 : TMState := (register_client 0 "u1" tm_init).1

/-- Step 2: worker B registers. -/
def cx_s2 : TMState := (register_client 0 "u2" cx_s1).1

/-- Step 3: a task is enqueued. -/
def cx_s3 : TMState :=
  (add_task 0 "p" "Create Image" "16:9" "1K" none none none cx_s2).1

/-- Step 4: execution is started. -/
def cx_s4 : TMState := start_execution cx_s3

/-- Step 5: the dispatch loop assigns the task to worker A
("c0_0") and the send succeeds. -/
def cx_s5 : TMState := (dispatch_step 0 fs_empty thumb_none true cx_s4).1

/-- Step 6: worker B ("c1_0") sends a `result` message carrying an
error for the task assigned to worker A; the handler fails the task and
idles worker B, leaving worker A's binding in place. -/
def cx_s6 : TMState :=
  handle_result 5 "c1_0" (some "task_0_0") (some "boom") cx_s5

/-- Step 7: the user retries the failed task, which requeues it without
touching worker A's stale binding. -/
def cx_s7 : TMState := (retry_task 0 cx_s6).1

/-- Step 8: the dispatch loop (worker B's cooldown having elapsed)
assigns the same task to worker B — now both workers hold
"task_0_0". -/
def cx_s8 : TMState := (dispatch_step 100 fs_empty thumb_none true cx_s7).1

/-- Witness state for the skip-if-exists path: one imported task (row
number 7), one idle worker, execution running. -/
def skip_demo_state : TMState :=
  start_execution (register_client 0 "u1"
    (add_task 0 "hello" "Create Image" "16:9" "4K" none none (some "7") tm_init).1).1

/-- Filesystem on which exactly `output/7.png` exists. -/
def fs_only_7png : String → Bool := fun p => p = "output/7.png"

/-- Thumbnailer returning a fixed preview string. -/
def thumb_const : String → Option String := fun _ => some "THUMB"

/-- Witness state for the send-failure path: one plain task, one idle
worker, execution running. -/
def send_fail_demo_state : TMState :=
  start_execution (register_client 0 "u1"
    (add_task 0 "hi" "Create Image" "16:9" "4K" none none none tm_init).1).1

theorem dict_lookup_some_mem {β : Type} {cs : List (String × β)} {k : String} {v : β}
    (h : dict_lookup cs k = some v) : (k, v) ∈ cs := by
  induction cs with
  | nil => simp [dict_lookup] at h
  | cons hd tl ih =>
    obtain ⟨k0, v0⟩ := hd
    by_cases hk : k0 = k
    · subst hk
      simp [dict_lookup] at h
      simp [h]
    · simp [dict_lookup, hk] at h
      exact List.mem_cons_of_mem _ (ih h)

theorem dict_lookup_none_forall {β : Type} {cs : List (String × β)} {k : String}
    (h : dict_lookup cs k = none) : ∀ p ∈ cs, p.1 ≠ k := by
  induction cs with
  | nil => simp
  | cons hd tl ih =>
    obtain ⟨k0, v0⟩ := hd
    by_cases hk : k0 = k
    · simp [dict_lookup, hk] at h
    · simp [dict_lookup, hk] at h
      intro p hp
      rcases List.mem_cons.mp hp with hp | hp
      · simp [hp, hk]
      · exact ih h p hp

theorem mem_dict_insert {β : Type} {cs : List (String × β)} {k : String} {v : β}
    {p : String × β} (h : p ∈ dict_insert cs k v) : p ∈ cs ∨ p = (k, v) := by
  induction cs with
  | nil => simp [dict_insert] at h; simp [h]
  | cons hd tl ih =>
    obtain ⟨k0, v0⟩ := hd
    by_cases hk : k0 = k
    · simp [dict_insert, hk] at h
      rcases h with h | h
      · right; simp [h, hk]
      · left; exact List.mem_cons_of_mem _ h
    · simp [dict_insert, hk] at h
      rcases h with h | h
      · left; simp [h]
      · rcases ih h with h' | h'
        · left; exact List.mem_cons_of_mem _ h'
        · right; exact h'

theorem mem_dict_erase {β : Type} {cs : List (String × β)} {k : String}
    {p : String × β} (h : p ∈ dict_erase cs k) : p ∈ cs := by
  induction cs with
  | nil => simp [dict_erase] at h
  | cons hd tl ih =>
    obtain ⟨k0, v0⟩ := hd
    by_cases hk : k0 = k
    · simp [dict_erase, hk] at h
      exact List.mem_cons_of_mem _ h
    · simp [dict_erase, hk] at h
      rcases h with h | h
      · simp [h]
      · exact List.mem_cons_of_mem _ (ih h)

theorem dict_lookup_erase_self {β : Type} {cs : List (String × β)} {k : String}
    (h : (cs.map Prod.fst).Nodup) : dict_lookup (dict_erase cs k) k = none := by
  induction cs with
  | nil => simp [dict_erase, dict_lookup]
  | cons hd tl ih =>
    obtain ⟨k0, v0⟩ := hd
    simp only [List.map_cons, List.nodup_cons] at h
    by_cases hk : k0 = k
    · subst hk
      simp only [dict_erase, if_pos rfl]
      rcases Option.eq_none_or_eq_some (dict_lookup tl k0) with hn | ⟨w, hw⟩
      · exact hn
      · exact absurd (List.mem_map_of_mem Prod.fst (dict_lookup_some_mem hw)) h.1
    · simp only [dict_erase, if_neg hk, dict_lookup, if_neg hk]
      exact ih h.2

theorem mem_dict_erase_ne {β : Type} {cs : List (String × β)} {k : String}
    {p : String × β} (h : (cs.map Prod.fst).Nodup) (hp : p ∈ dict_erase cs k) :
    p.1 ≠ k := by
  induction cs with
  | nil => simp [dict_erase] at hp
  | cons hd tl ih =>
    obtain ⟨k0, v0⟩ := hd
    simp only [List.map_cons, List.nodup_cons] at h
    by_cases hk : k0 = k
    · subst hk
      simp only [dict_erase, if_pos rfl] at hp
      intro hpk
      exact h.1 (hpk ▸ List.mem_map_of_mem Prod.fst hp)
    · simp only [dict_erase, if_neg hk] at hp
      rcases List.mem_cons.mp hp with hp | hp
      · simp [hp, hk]
      · exact ih h.2 hp

theorem dict_lookup_modify_client_self {cid : String} {f : ClientInfo → ClientInfo}
    {cs : List (String × ClientInfo)} :
    dict_lookup (modify_client cid f cs) cid = (dict_lookup cs cid).map f := by
  induction cs with
  | nil => simp [modify_client, dict_lookup]
  | cons hd tl ih =>
    obtain ⟨k0, v0⟩ := hd
    by_cases hk : k0 = cid
    · simp [modify_client, dict_lookup, hk]
    · simp [modify_client, dict_lookup, hk, ih]

theorem dict_lookup_modify_client_ne {cid k : String} {f : ClientInfo → ClientInfo}
    {cs : List (String × ClientInfo)} (h : k ≠ cid) :
    dict_lookup (modify_client cid f cs) k = dict_lookup cs k := by
  induction cs with
  | nil => simp [modify_client]
  | cons hd tl ih =>
    obtain ⟨k0, v0⟩ := hd
    by_cases hk : k0 = cid
    · subst hk
      simp [modify_client, dict_lookup, Ne.symm h]
    · by_cases hk2 : k0 = k
      · subst hk2
        simp [modify_client, dict_lookup, hk, h]
      · simp [modify_client, dict_lookup, hk, hk2, ih]

theorem mem_modify_client {cid : String} {f : ClientInfo → ClientInfo}
    {cs : List (String × ClientInfo)} {p : String × ClientInfo}
    (h : p ∈ modify_client cid f cs) :
    p ∈ cs ∨ ∃ v, (cid, v) ∈ cs ∧ p = (cid, f v) := by
  induction cs with
  | nil => simp [modify_client] at h
  | cons hd tl ih =>
    obtain ⟨k0, v0⟩ := hd
    by_cases hk : k0 = cid
    · subst hk
      simp only [modify_client, if_pos rfl] at h
      rcases List.mem_cons.mp h with h | h
      · right; exact ⟨v0, by simp, h⟩
      · left; exact List.mem_cons_of_mem _ h
    · simp only [modify_client, if_neg hk] at h
      rcases List.mem_cons.mp h with h | h
      · left; simp [h]
      · rcases ih h with h' | ⟨v, hv, hp⟩
        · left; exact List.mem_cons_of_mem _ h'
        · right; exact ⟨v, List.mem_cons_of_mem _ hv, hp⟩

theorem keys_modify_client {cid : String} {f : ClientInfo → ClientInfo}
    {cs : List (String × ClientInfo)} :
    (modify_client cid f cs).map Prod.fst = cs.map Prod.fst := by
  induction cs with
  | nil => simp [modify_client]
  | cons hd tl ih =>
    obtain ⟨k0, v0⟩ := hd
    by_cases hk : k0 = cid
    · simp [modify_client, hk]
    · simp [modify_client, hk, ih]

/-- Relation between a client list and a weakened version of it: every
entry is either unchanged or released (busy flag and task binding
cleared).  Every client-registry mutation of the timeout sweep is of
this shape. -/
def weakens (cs' cs : List (String × ClientInfo)) : Prop :=
  ∀ p ∈ cs', ∃ q ∈ cs, p.1 = q.1 ∧ (p.2 = q.2 ∨ (p.2.busy = false ∧ p.2.task_id = none))

theorem weakens_refl (cs : List (String × ClientInfo)) : weakens cs cs :=
  fun p hp => ⟨p, hp, rfl, Or.inl rfl⟩

theorem weakens_trans {cs1 cs2 cs3 : List (String × ClientInfo)}
    (h12 : weakens cs1 cs2) (h23 : weakens cs2 cs3) : weakens cs1 cs3 := by
  intro p hp
  obtain ⟨q, hq, hk, hv⟩ := h12 p hp
  obtain ⟨r, hr, hk', hv'⟩ := h23 q hq
  refine ⟨r, hr, hk.trans hk', ?_⟩
  rcases hv with hv | hv
  · rcases hv' with hv' | hv'
    · exact Or.inl (hv.trans hv')
    · exact Or.inr (by rw [hv]; exact hv')
  · exact Or.inr hv

theorem weakens_modify_release {cid : String} {cs : List (String × ClientInfo)} :
    weakens (modify_client cid release_info cs) cs := by
  intro p hp
  rcases mem_modify_client hp with h | ⟨v, hv, rfl⟩
  · exact ⟨p, h, rfl, Or.inl rfl⟩
  · exact ⟨(cid, v), hv, rfl, Or.inr ⟨rfl, rfl⟩⟩

theorem busy_iff_of_weakens {cs' cs : List (String × ClientInfo)}
    (hw : weakens cs' cs) (h : busy_iff cs) : busy_iff cs' := by
  intro p hp
  obtain ⟨q, hq, _, hv⟩ := hw p hp
  rcases hv with hv | hv
  · rw [hv]; exact h q hq
  · rw [hv.1, hv.2]; rfl

theorem amo_of_weakens {cs' cs : List (String × ClientInfo)}
    (hw : weakens cs' cs) (h : at_most_one_holder cs) : at_most_one_holder cs' := by
  intro p hp q hq hsome heq
  obtain ⟨p', hp', hkp, hvp⟩ := hw p hp
  obtain ⟨q', hq', hkq, hvq⟩ := hw q hq
  rcases hvp with hvp | hvp
  · rcases hvq with hvq | hvq
    · rw [hkp, hkq]
      exact h p' hp' q' hq' (by rw [← hvp]; exact hsome) (by rw [← hvp, ← hvq]; exact heq)
    · rw [heq, hvq.2] at hsome
      simp at hsome
  · rw [hvp.2] at hsome
    simp at hsome

theorem busy_iff_of_sub {cs' cs : List (String × ClientInfo)}
    (hsub : ∀ p ∈ cs', p ∈ cs) (h : busy_iff cs) : busy_iff cs' :=
  fun p hp => h p (hsub p hp)

theorem amo_of_sub {cs' cs : List (String × ClientInfo)}
    (hsub : ∀ p ∈ cs', p ∈ cs) (h : at_most_one_holder cs) : at_most_one_holder cs' :=
  fun p hp q hq hs he => h p (hsub p hp) q (hsub q hq) hs he

theorem busy_iff_modify {cid : String} {f : ClientInfo → ClientInfo}
    {cs : List (String × ClientInfo)}
    (hf : ∀ v, (f v).busy = (f v).task_id.isSome) (h : busy_iff cs) :
    busy_iff (modify_client cid f cs) := by
  intro p hp
  rcases mem_modify_client hp with h' | ⟨v, _, rfl⟩
  · exact h p h'
  · exact hf v

theorem busy_iff_insert {cs : List (String × ClientInfo)} {k : String} {v : ClientInfo}
    (h : busy_iff cs) (hv : v.busy = v.task_id.isSome) : busy_iff (dict_insert cs k v) := by
  intro p hp
  rcases mem_dict_insert hp with h' | h'
  · exact h p h'
  · rw [h']; exact hv

theorem amo_modify_clear {cid : String} {f : ClientInfo → ClientInfo}
    {cs : List (String × ClientInfo)}
    (hf : ∀ v, (f v).task_id = none) (h : at_most_one_holder cs) :
    at_most_one_holder (modify_client cid f cs) := by
  intro p hp q hq hsome heq
  rcases mem_modify_client hp with hp' | ⟨v, hv, rfl⟩
  · rcases mem_modify_client hq with hq' | ⟨w, hw, rfl⟩
    · exact h p hp' q hq' hsome heq
    · rw [heq] at hsome
      simp [hf w] at hsome
  · simp [hf v] at hsome

theorem amo_modify_busy {cid tid : String} {cs : List (String × ClientInfo)}
    (h : at_most_one_holder cs)
    (hhold : ∀ q ∈ cs, q.2.task_id = some tid → q.1 = cid) :
    at_most_one_holder (modify_client cid (busy_update tid) cs) := by
  intro p hp q hq hsome heq
  rcases mem_modify_client hp with hp' | ⟨v, hv, rfl⟩
  · rcases mem_modify_client hq with hq' | ⟨w, hw, rfl⟩
    · exact h p hp' q hq' hsome heq
    · simp only [busy_update] at heq
      exact (hhold p hp' heq).trans rfl
  · rcases mem_modify_client hq with hq' | ⟨w, hw, rfl⟩
    · simp only [busy_update] at heq
      exact ((hhold q hq' heq.symm)).symm
    · rfl

theorem sweep_go_tasks (now : Nat) (ts : List Task) (cs : List (String × ClientInfo)) :
    (sweep_go now ts cs).1 =
      ts.map (fun t => if task_timed_out now t then stamp_timed_out now t else t) := by
  induction ts generalizing cs with
  | nil => simp [sweep_go]
  | cons t ts ih =>
    by_cases h : task_timed_out now t
    · simp only [sweep_go, if_pos h, List.map_cons]
      exact congrArg _ (ih _)
    · simp only [sweep_go, if_neg h, List.map_cons]
      exact congrArg _ (ih _)

theorem sweep_go_clients_weakens (now : Nat) (ts : List Task)
    (cs : List (String × ClientInfo)) : weakens (sweep_go now ts cs).2.1 cs := by
  induction ts generalizing cs with
  | nil => exact weakens_refl cs
  | cons t ts ih =>
    by_cases h : task_timed_out now t
    · simp only [sweep_go, if_pos h]
      cases hc : t.client_id with
      | none => simpa [hc] using ih cs
      | some cid =>
        by_cases hg : cid ≠ "" ∧ (dict_lookup cs cid).isSome
        · simp only [hc, if_pos hg]
          exact weakens_trans (ih _) weakens_modify_release
        · simp only [hc, if_neg hg]
          exact ih cs
    · simp only [sweep_go, if_neg h]
      exact ih cs

theorem sweep_go_keys (now : Nat) (ts : List Task) (cs : List (String × ClientInfo)) :
    (sweep_go now ts cs).2.1.map Prod.fst = cs.map Prod.fst := by
  induction ts generalizing cs with
  | nil => simp [sweep_go]
  | cons t ts ih =>
    by_cases h : task_timed_out now t
    · simp only [sweep_go, if_pos h]
      cases hc : t.client_id with
      | none => exact ih cs
      | some cid =>
        by_cases hg : cid ≠ "" ∧ (dict_lookup cs cid).isSome
        · simp only [hc, if_pos hg]
          exact (ih _).trans keys_modify_client
        · simp only [hc, if_neg hg]
          exact ih cs
    · simp only [sweep_go, if_neg h]
      exact ih cs

theorem cleared_after_clear_steps {now : Nat} {ts : List Task}
    {cs : List (String × ClientInfo)} {cid : String} {v : ClientInfo}
    (h : dict_lookup cs cid = some v) (hb : v.busy = false) (ht : v.task_id = none) :
    ∃ w, dict_lookup (sweep_go now ts cs).2.1 cid = some w ∧
      w.busy = false ∧ w.task_id = none := by
  induction ts generalizing cs v with
  | nil => exact ⟨v, by simpa [sweep_go] using h, hb, ht⟩
  | cons t ts ih =>
    by_cases htmo : task_timed_out now t
    · simp only [sweep_go, if_pos htmo]
      cases hc : t.client_id with
      | none => exact ih h hb ht
      | some cid' =>
        by_cases hg : cid' ≠ "" ∧ (dict_lookup cs cid').isSome
        · simp only [hc, if_pos hg]
          by_cases hcc : cid = cid'
          · subst hcc
            refine ih (v := release_info v) ?_ rfl rfl
            rw [dict_lookup_modify_client_self, h]
            rfl
          · refine ih (v := v) ?_ hb ht
            rw [dict_lookup_modify_client_ne hcc]
            exact h
        · simp only [hc, if_neg hg]
          exact ih h hb ht
    · simp only [sweep_go, if_neg htmo]
      exact ih h hb ht

theorem sweep_go_lookup_isSome (now : Nat) (ts : List Task)
    (cs : List (String × ClientInfo)) (cid : String) :
    (dict_lookup (sweep_go now ts cs).2.1 cid).isSome = (dict_lookup cs cid).isSome := by
  induction ts generalizing cs with
  | nil => simp [sweep_go]
  | cons t ts ih =>
    by_cases h : task_timed_out now t
    · simp only [sweep_go, if_pos h]
      cases hc : t.client_id with
      | none => exact ih cs
      | some cid' =>
        by_cases hg : cid' ≠ "" ∧ (dict_lookup cs cid').isSome
        · simp only [hc, if_pos hg]
          rw [ih]
          by_cases hcc : cid = cid'
          · subst hcc
            rw [dict_lookup_modify_client_self]
            simp
          · rw [dict_lookup_modify_client_ne hcc]
        · simp only [hc, if_neg hg]
          exact ih cs
    · simp only [sweep_go, if_neg h]
      exact ih cs

theorem sweep_releases_client {now : Nat} {ts : List Task}
    {cs : List (String × ClientInfo)} {t : Task} {cid : String}
    (hmem : t ∈ ts) (htmo : task_timed_out now t = true)
    (hcid : t.client_id = some cid) (hne : cid ≠ "")
    (hreg : (dict_lookup cs cid).isSome) :
    ∃ w, dict_lookup (sweep_go now ts cs).2.1 cid = some w ∧
      w.busy = false ∧ w.task_id = none := by
  induction ts generalizing cs with
  | nil => simp at hmem
  | cons t0 ts ih =>
    rcases List.mem_cons.mp hmem with rfl | hmem'
    · have hg : cid ≠ "" ∧ (dict_lookup cs cid).isSome = true := ⟨hne, hreg⟩
      simp only [sweep_go, if_pos htmo, hcid]
      obtain ⟨v, hv⟩ := Option.isSome_iff_exists.mp hreg
      refine cleared_after_clear_steps (v := release_info v) ?_ rfl rfl
      rw [if_pos hg, dict_lookup_modify_client_self, hv]
      rfl
    · by_cases h0 : task_timed_out now t0
      · simp only [sweep_go, if_pos h0]
        cases hc : t0.client_id with
        | none => exact ih hmem' hreg
        | some cid' =>
          by_cases hg : cid' ≠ "" ∧ (dict_lookup cs cid').isSome
          · simp only [hc, if_pos hg]
            refine ih hmem' ?_
            by_cases hcc : cid = cid'
            · subst hcc
              rw [dict_lookup_modify_client_self]
              simpa using hreg
            · rw [dict_lookup_modify_client_ne hcc]
              exact hreg
          · simp only [hc, if_neg hg]
            exact ih hmem' hreg
      · simp only [sweep_go, if_neg h0]
        exact ih hmem' hreg

theorem check_timeout_clients_weakens (now : Nat) (s : TMState) :
    weakens (check_timeout_tasks now s).1.clients s.clients :=
  sweep_go_clients_weakens now s.tasks s.clients

theorem check_timeout_tasks_tasks (now : Nat) (s : TMState) :
    (check_timeout_tasks now s).1.tasks =
      s.tasks.map (fun t => if task_timed_out now t then stamp_timed_out now t else t) :=
  sweep_go_tasks now s.tasks s.clients

theorem queued_unheld_sweep {now : Nat} {s : TMState} (h : QueuedUnheld s) :
    QueuedUnheld (check_timeout_tasks now s).1 := by
  intro p hp t' ht' hhold hq
  obtain ⟨q, hq', hk, hv⟩ := check_timeout_clients_weakens now s p hp
  rcases hv with hv | hv
  · rw [check_timeout_tasks_tasks] at ht'
    obtain ⟨t, ht, hmap⟩ := List.mem_map.mp ht'
    by_cases htmo : task_timed_out now t
    · rw [if_pos htmo] at hmap
      rw [← hmap] at hq
      exact absurd hq (by simp [stamp_timed_out])
    · rw [if_neg htmo] at hmap
      subst hmap
      exact h q hq' t ht (by rw [← hv]; exact hhold) hq
  · rw [hv.2] at hhold
    exact Option.noConfusion hhold

theorem gnt_go_some {ts : List Task} {fuel i j : Nat} {t : Task}
    (h : gnt_go ts fuel i = (some t, j)) :
    ts[j]? = some t ∧ t.status = .queued := by
  induction fuel generalizing i with
  | zero => simp [gnt_go] at h
  | succ fuel ih =>
    rw [gnt_go] at h
    cases hi : ts[i]? with
    | none => rw [hi] at h; simp at h
    | some t0 =>
      simp only [hi] at h
      by_cases hq : t0.status = .queued
      · rw [if_pos hq] at h
        simp only [Prod.mk.injEq, Option.some.injEq] at h
        obtain ⟨rfl, rfl⟩ := h
        exact ⟨hi, hq⟩
      · rw [if_neg hq] at h
        exact ih h

theorem get_next_task_some {ts : List Task} {i j : Nat} {t : Task}
    (h : get_next_task ts i = (some t, j)) :
    ts[j]? = some t ∧ t.status = .queued :=
  gnt_go_some h

theorem get_next_task_mem {ts : List Task} {i j : Nat} {t : Task}
    (h : get_next_task ts i = (some t, j)) : t ∈ ts := by
  obtain ⟨h1, _⟩ := get_next_task_some h
  exact List.getElem?_mem h1

theorem start_execution_clients (s : TMState) :
    (start_execution s).clients = s.clients := by
  unfold start_execution
  split
  · rfl
  · split <;> rfl

theorem start_execution_tasks (s : TMState) :
    (start_execution s).tasks = s.tasks := by
  unfold start_execution
  split
  · rfl
  · split <;> rfl

theorem start_execution_current_index (s : TMState) :
    (start_execution s).current_index = s.current_index := by
  unfold start_execution
  split
  · rfl
  · split <;> rfl

theorem add_task_clients (now : Nat) (p ty ar res : String)
    (refs : Option (List String)) (od rn : Option String) (s : TMState) :
    (add_task now p ty ar res refs od rn s).1.clients = s.clients := by
  simp only [add_task]
  split <;> rfl

theorem retry_task_clients (idx : Int) (s : TMState) :
    (retry_task idx s).1.clients = s.clients := by
  simp only [retry_task]
  split
  · rfl
  · split
    · rfl
    · split
      · split
        · rfl
        · exact start_execution_clients _
      · rfl

theorem retry_all_failed_clients (s : TMState) :
    (retry_all_failed s).1.clients = s.clients := by
  simp only [retry_all_failed]
  split
  · rfl
  · split
    · rfl
    · exact start_execution_clients _

theorem run_single_task_clients (idx : Int) (s : TMState) :
    (run_single_task idx s).1.clients = s.clients := by
  simp only [run_single_task]
  split
  · rfl
  · split
    · rfl
    · split
      · rfl
      · split
        · rfl
        · split
          · rfl
          · exact start_execution_clients _

theorem handle_status_clients (cid msg : String) (s : TMState) :
    (handle_status cid msg s).clients = s.clients := by
  unfold handle_status
  split
  · split
    · split <;> rfl
    · rfl
  · rfl

theorem mark_client_busy_clients (cid tid : String) (s : TMState) :
    (mark_client_busy cid tid s).clients =
      if (dict_lookup s.clients cid).isSome then
        modify_client cid (busy_update tid) s.clients
      else s.clients := by
  unfold mark_client_busy
  split <;> simp_all

theorem mark_client_idle_clients (now : Nat) (cid : String) (s : TMState) :
    (mark_client_idle now cid s).clients =
      if (dict_lookup s.clients cid).isSome then
        modify_client cid (idle_update now) s.clients
      else s.clients := by
  unfold mark_client_idle
  split <;> simp_all

theorem mark_client_busy_tasks (cid tid : String) (s : TMState) :
    (mark_client_busy cid tid s).tasks =
      if (dict_lookup s.clients cid).isSome then set_first_client tid cid s.tasks
      else s.tasks := by
  unfold mark_client_busy
  split <;> simp_all

theorem mark_client_idle_tasks (now : Nat) (cid : String) (s : TMState) :
    (mark_client_idle now cid s).tasks = s.tasks := by
  unfold mark_client_idle
  split <;> rfl

theorem mark_client_idle_scalars (now : Nat) (cid : String) (s : TMState) :
    (mark_client_idle now cid s).current_index = s.current_index ∧
    (mark_client_idle now cid s).is_running = s.is_running ∧
    (mark_client_idle now cid s).next_page_number = s.next_page_number := by
  unfold mark_client_idle
  split <;> exact ⟨rfl, rfl, rfl⟩

theorem busy_iff_mark_busy {cid tid : String} {s : TMState}
    (h : busy_iff s.clients) : busy_iff (mark_client_busy cid tid s).clients := by
  rw [mark_client_busy_clients]
  split
  · exact busy_iff_modify (fun v => rfl) h
  · exact h

theorem busy_iff_mark_idle {now : Nat} {cid : String} {s : TMState}
    (h : busy_iff s.clients) : busy_iff (mark_client_idle now cid s).clients := by
  rw [mark_client_idle_clients]
  split
  · exact busy_iff_modify (fun v => rfl) h
  · exact h

theorem amo_mark_idle {now : Nat} {cid : String} {s : TMState}
    (h : at_most_one_holder s.clients) :
    at_most_one_holder (mark_client_idle now cid s).clients := by
  rw [mark_client_idle_clients]
  split
  · exact amo_modify_clear (fun v => rfl) h
  · exact h

theorem busy_iff_register {now : Nat} {url : String} {s : TMState}
    (h : busy_iff s.clients) : busy_iff (register_client now url s).1.clients := by
  simp only [register_client]
  refine busy_iff_insert (busy_iff_of_sub ?_ h) rfl
  intro p hp
  exact List.mem_of_mem_filter hp

theorem amo_register {now : Nat} {url : String} {s : TMState}
    (h : at_most_one_holder s.clients) :
    at_most_one_holder (register_client now url s).1.clients := by
  simp only [register_client]
  intro p hp q hq hsome heq
  rcases mem_dict_insert hp with hp' | rfl
  · rcases mem_dict_insert hq with hq' | rfl
    · exact h p (List.mem_of_mem_filter hp') q (List.mem_of_mem_filter hq') hsome heq
    · rw [heq] at hsome
      simp at hsome
  · simp at hsome

theorem busy_iff_remove {cid : String} {s : TMState}
    (h : busy_iff s.clients) : busy_iff (remove_client cid s).clients := by
  unfold remove_client
  split
  · exact h
  · exact busy_iff_of_sub (fun p hp => mem_dict_erase hp) h

theorem amo_remove {cid : String} {s : TMState}
    (h : at_most_one_holder s.clients) :
    at_most_one_holder (remove_client cid s).clients := by
  unfold remove_client
  split
  · exact h
  · exact amo_of_sub (fun p hp => mem_dict_erase hp) h

theorem busy_iff_sweep {now : Nat} {s : TMState}
    (h : busy_iff s.clients) : busy_iff (check_timeout_tasks now s).1.clients :=
  busy_iff_of_weakens (check_timeout_clients_weakens now s) h

theorem amo_sweep {now : Nat} {s : TMState}
    (h : at_most_one_holder s.clients) :
    at_most_one_holder (check_timeout_tasks now s).1.clients :=
  amo_of_weakens (check_timeout_clients_weakens now s) h

theorem handle_result_clients (now : Nat) (cid : String) (tid err : Option String)
    (s : TMState) :
    (handle_result now cid tid err s).clients =
      if (dict_lookup s.clients cid).isSome then
        modify_client cid (idle_update now) s.clients
      else s.clients := by
  unfold handle_result
  rw [mark_client_idle_clients]
  split <;> rfl

theorem handle_image_result_clients (now : Nat) (base : String)
    (fe : String → Bool) (th : String → Option String) (save_ok : Bool)
    (fuel : Nat) (cid tid : String) (s : TMState) :
    (handle_image_result now base fe th save_ok fuel cid tid s).1.clients =
      if (dict_lookup s.clients cid).isSome then
        modify_client cid (idle_update now) s.clients
      else s.clients := by
  unfold handle_image_result
  split
  · rw [mark_client_idle_clients]
  · split
    · rw [mark_client_idle_clients]
    · rw [mark_client_idle_clients]

theorem busy_iff_idle_form {now : Nat} {cid : String}
    {cs : List (String × ClientInfo)} (h : busy_iff cs) :
    busy_iff (if (dict_lookup cs cid).isSome then
        modify_client cid (idle_update now) cs else cs) := by
  split
  · exact busy_iff_modify (fun v => rfl) h
  · exact h

theorem amo_idle_form {now : Nat} {cid : String}
    {cs : List (String × ClientInfo)} (h : at_most_one_holder cs) :
    at_most_one_holder (if (dict_lookup cs cid).isSome then
        modify_client cid (idle_update now) cs else cs) := by
  split
  · exact amo_modify_clear (fun v => rfl) h
  · exact h

theorem get_next_task_fst_some {ts : List Task} {i : Nat} {t : Task}
    (h : (get_next_task ts i).1 = some t) :
    ts[(get_next_task ts i).2]? = some t ∧ t.status = .queued := by
  have h' : get_next_task ts i = (some t, (get_next_task ts i).2) := by
    rw [← h]
  exact get_next_task_some h'

theorem amo_mark_busy {cid tid : String} {s : TMState}
    (h : at_most_one_holder s.clients)
    (hhold : ∀ q ∈ s.clients, q.2.task_id = some tid → q.1 = cid) :
    at_most_one_holder (mark_client_busy cid tid s).clients := by
  rw [mark_client_busy_clients]
  split
  · exact amo_modify_busy h hhold
  · exact h

theorem add_task_some_id {now : Nat} {p ty ar res : String}
    {refs : Option (List String)} {od rn : Option String} {s : TMState} {t : Task}
    (h : (add_task now p ty ar res refs od rn s).2 = some t) :
    t.id = new_task_id s.tasks.length now := by
  simp only [add_task] at h
  split at h
  · exact absurd h (by simp)
  · rw [← Option.some.inj h]

theorem busy_iff_dispatch {now : Nat} {fe : String → Bool}
    {th : String → Option String} {ok : Bool} {s : TMState}
    (h : busy_iff s.clients) :
    busy_iff (dispatch_step now fe th ok s).1.clients := by
  simp only [dispatch_step]
  split
  · exact h
  · split
    · split
      · exact busy_iff_sweep h
      · exact busy_iff_sweep h
    · split
      · exact busy_iff_sweep h
      · split
        · exact busy_iff_sweep h
        · split
          · exact busy_iff_sweep h
          · split
            · exact busy_iff_mark_busy (busy_iff_sweep h)
            · exact busy_iff_mark_idle (busy_iff_mark_busy (busy_iff_sweep h))

theorem amo_dispatch {now : Nat} {fe : String → Bool}
    {th : String → Option String} {ok : Bool} {s : TMState}
    (h2 : at_most_one_holder s.clients)
    (h3 : QueuedUnheld s) :
    at_most_one_holder (dispatch_step now fe th ok s).1.clients := by
  have hqs : QueuedUnheld (check_timeout_tasks now s).1 := queued_unheld_sweep h3
  simp only [dispatch_step]
  split
  · exact h2
  · split
    · split
      · exact amo_sweep h2
      · exact amo_sweep h2
    · next task heqt =>
      split
      · exact amo_sweep h2
      · split
        · exact amo_sweep h2
        · next cid cinfo hidle =>
          split
          · exact amo_sweep h2
          · have hts := get_next_task_fst_some heqt
            have hmem : task ∈ (check_timeout_tasks now s).1.tasks :=
              List.getElem?_mem hts.1
            have hhold : ∀ q ∈ (check_timeout_tasks now s).1.clients,
                q.2.task_id = some task.id → q.1 = cid := by
              intro q hq hqt
              exact absurd hts.2 (hqs q hq task hmem hqt)
            split
            · exact amo_mark_busy (amo_sweep h2) hhold
            · exact amo_mark_idle (amo_mark_busy (amo_sweep h2) hhold)

theorem busy_iff_after {sx : TMState} (h : busy_iff sx.clients) :
    busy_iff (if sx.is_running = true then sx else start_execution sx).clients := by
  split
  · exact h
  · rw [start_execution_clients]
    exact h

theorem amo_after {sx : TMState} (h : at_most_one_holder sx.clients) :
    at_most_one_holder (if sx.is_running = true then sx else start_execution sx).clients := by
  split
  · exact h
  · rw [start_execution_clients]
    exact h

theorem busy_iff_chat {now : Nat} {ok : Bool} {p ty ar res : String}
    {imgs : List String} {s : TMState} (h : busy_iff s.clients) :
    busy_iff (chat_create_and_dispatch now ok p ty ar res imgs s).1.clients := by
  have hb1 : busy_iff (add_task now p ty ar res (some imgs) none none s).1.clients := by
    rw [add_task_clients]
    exact h
  simp only [chat_create_and_dispatch]
  split
  · exact h
  · split
    · exact hb1
    · split
      · exact busy_iff_after hb1
      · split
        · exact busy_iff_after (busy_iff_mark_busy hb1)
        · exact busy_iff_after (busy_iff_mark_idle (busy_iff_mark_busy hb1))

theorem amo_chat {now : Nat} {ok : Bool} {p ty ar res : String}
    {imgs : List String} {s : TMState}
    (h2 : at_most_one_holder s.clients)
    (hfresh : ∀ q ∈ s.clients, q.2.task_id ≠ some (new_task_id s.tasks.length now)) :
    at_most_one_holder (chat_create_and_dispatch now ok p ty ar res imgs s).1.clients := by
  have ha2 : at_most_one_holder (add_task now p ty ar res (some imgs) none none s).1.clients := by
    rw [add_task_clients]
    exact h2
  simp only [chat_create_and_dispatch]
  split
  · exact h2
  · split
    · exact ha2
    · next task heqt =>
      split
      · exact amo_after ha2
      · next cid cinfo hidle =>
        have hid := add_task_some_id heqt
        have hhold : ∀ q ∈ (add_task now p ty ar res (some imgs) none none s).1.clients,
            q.2.task_id = some task.id → q.1 = cid := by
          intro q hq hqt
          rw [add_task_clients] at hq
          rw [hid] at hqt
          exact absurd hqt (hfresh q hq)
        split
        · exact amo_after (amo_mark_busy ha2 hhold)
        · exact amo_after (amo_mark_idle (amo_mark_busy ha2 hhold))

theorem busy_iff_handle_result {now : Nat} {cid : String} {tid err : Option String}
    {s : TMState} (h : busy_iff s.clients) :
    busy_iff (handle_result now cid tid err s).clients := by
  rw [handle_result_clients]
  exact busy_iff_idle_form h

theorem amo_handle_result {now : Nat} {cid : String} {tid err : Option String}
    {s : TMState} (h : at_most_one_holder s.clients) :
    at_most_one_holder (handle_result now cid tid err s).clients := by
  rw [handle_result_clients]
  exact amo_idle_form h

theorem busy_iff_handle_image {now : Nat} {base : String} {fe : String → Bool}
    {th : String → Option String} {save_ok : Bool} {fuel : Nat} {cid tid : String}
    {s : TMState} (h : busy_iff s.clients) :
    busy_iff (handle_image_result now base fe th save_ok fuel cid tid s).1.clients := by
  rw [handle_image_result_clients]
  exact busy_iff_idle_form h

theorem amo_handle_image {now : Nat} {base : String} {fe : String → Bool}
    {th : String → Option String} {save_ok : Bool} {fuel : Nat} {cid tid : String}
    {s : TMState} (h : at_most_one_holder s.clients) :
    at_most_one_holder (handle_image_result now base fe th save_ok fuel cid tid s).1.clients := by
  rw [handle_image_result_clients]
  exact amo_idle_form h

theorem busy_iff_reachable {s : TMState} (h : Reachable s) : busy_iff s.clients := by
  have h' : Relation.ReflTransGen Step tm_init s := h
  clear h
  induction h' with
  | refl =>
    intro p hp
    simp [tm_init] at hp
  | tail _ hstep ih =>
    cases hstep with
    | register now url s1 => exact busy_iff_register ih
    | disconnect cid s1 => exact busy_iff_remove ih
    | add now p ty ar res refs od rn s1 =>
      rw [add_task_clients]
      exact ih
    | dispatch now fe th ok s1 => exact busy_iff_dispatch ih
    | chat now ok p ty ar res imgs s1 => exact busy_iff_chat ih
    | ws_result now cid tid err s1 => exact busy_iff_handle_result ih
    | ws_image now base fe th sok fuel cid tid s1 => exact busy_iff_handle_image ih
    | ws_status cid msg s1 =>
      rw [handle_status_clients]
      exact ih
    | retry idx s1 =>
      rw [retry_task_clients]
      exact ih
    | retry_all s1 =>
      rw [retry_all_failed_clients]
      exact ih
    | run_single idx s1 =>
      rw [run_single_task_clients]
      exact ih
    | clear s1 => exact ih
    | start s1 =>
      rw [start_execution_clients]
      exact ih
    | stop s1 => exact ih

/-- C1 (amended): at every reachable state a worker's busy flag is true
iff some task id is assigned to it; uniqueness of assignment (at most
one registered worker per task id) is preserved unconditionally by
register_client, remove_client, mark_client_idle, check_timeout_tasks
and the three worker message handlers, and it is preserved by
mark_client_busy, by the dispatch loop and by the immediate-dispatch
HTTP path under the side condition that no worker still holds the task
id being assigned (for the two dispatch paths: no queued task's id,
respectively the fresh task's id, is still recorded on a worker).
Without that side condition uniqueness can be violated (see the
counterexample). -/
theorem C1_bijection_amended :
    (∀ s : TMState, Reachable s → BusyIffAssigned s)
    ∧ (∀ (now : Nat) (url : String) (s : TMState), AtMostOneHolder s →
        AtMostOneHolder (register_client now url s).1)
    ∧ (∀ (cid : String) (s : TMState), AtMostOneHolder s →
        AtMostOneHolder (remove_client cid s))
    ∧ (∀ (now : Nat) (cid : String) (s : TMState), AtMostOneHolder s →
        AtMostOneHolder (mark_client_idle now cid s))
    ∧ (∀ (now : Nat) (s : TMState), AtMostOneHolder s →
        AtMostOneHolder (check_timeout_tasks now s).1)
    ∧ (∀ (now : Nat) (cid : String) (tid err : Option String) (s : TMState),
        AtMostOneHolder s → AtMostOneHolder (handle_result now cid tid err s))
    ∧ (∀ (now : Nat) (base : String) (fe : String → Bool)
        (th : String → Option String) (save_ok : Bool) (fuel : Nat)
        (cid tid : String) (s : TMState), AtMostOneHolder s →
        AtMostOneHolder (handle_image_result now base fe th save_ok fuel cid tid s).1)
    ∧ (∀ (cid msg : String) (s : TMState), AtMostOneHolder s →
        AtMostOneHolder (handle_status cid msg s))
    ∧ (∀ (cid tid : String) (s : TMState), AtMostOneHolder s →
        (∀ q ∈ s.clients, q.2.task_id = some tid → q.1 = cid) →
        AtMostOneHolder (mark_client_busy cid tid s))
    ∧ (∀ (now : Nat) (fe : String → Bool) (th : String → Option String)
        (ok : Bool) (s : TMState), AtMostOneHolder s → QueuedUnheld s →
        AtMostOneHolder (dispatch_step now fe th ok s).1)
    ∧ (∀ (now : Nat) (ok : Bool) (p ty ar res : String) (imgs : List String)
        (s : TMState), AtMostOneHolder s →
        (∀ q ∈ s.clients, q.2.task_id ≠ some (new_task_id s.tasks.length now)) →
        AtMostOneHolder (chat_create_and_dispatch now ok p ty ar res imgs s).1) := by
  refine ⟨?_, ?_, ?_, ?_, ?_, ?_, ?_, ?_, ?_, ?_, ?_⟩
  · exact fun s h => busy_iff_reachable h
  · exact fun now url s h => amo_register h
  · exact fun cid s h => amo_remove h
  · exact fun now cid s h => amo_mark_idle h
  · exact fun now s h => amo_sweep h
  · exact fun now cid tid err s h => amo_handle_result h
  · exact fun now base fe th sok fuel cid tid s h => amo_handle_image h
  · exact fun cid msg s h => by
      show at_most_one_holder (handle_status cid msg s).clients
      rw [handle_status_clients]
      exact h
  · exact fun cid tid s h hhold => amo_mark_busy h hhold
  · exact fun now fe th ok s h hq => amo_dispatch h hq
  · exact fun now ok p ty ar res imgs s h hfresh => amo_chat h hfresh

/-- C1 counterexample: the claim's uniqueness invariant fails at a
reachable state.  Two workers register; a task is dispatched to worker
A; worker B sends a `result` message naming worker A's task with an
error, which marks the task failed without clearing worker A's binding;
the user retries the task; the dispatch loop then assigns the same task
to worker B — after which both registered workers have the same
assigned task id. -/
theorem C1_counterexample : Reachable cx_s8 ∧ ¬ AtMostOneHolder cx_s8 := by
  constructor
  · have h1 : Step tm_init cx_s1 := Step.register 0 "u1" tm_init
    have h2 : Step cx_s1 cx_s2 := Step.register 0 "u2" cx_s1
    have h3 : Step cx_s2 cx_s3 :=
      Step.add 0 "p" "Create Image" "16:9" "1K" none none none cx_s2
    have h4 : Step cx_s3 cx_s4 := Step.start cx_s3
    have h5 : Step cx_s4 cx_s5 := Step.dispatch 0 fs_empty thumb_none true cx_s4
    have h6 : Step cx_s5 cx_s6 :=
      Step.ws_result 5 "c1_0" (some "task_0_0") (some "boom") cx_s5
    have h7 : Step cx_s6 cx_s7 := Step.retry 0 cx_s6
    have h8 : Step cx_s7 cx_s8 := Step.dispatch 100 fs_empty thumb_none true cx_s7
    exact Relation.ReflTransGen.head h1 (Relation.ReflTransGen.head h2
      (Relation.ReflTransGen.head h3 (Relation.ReflTransGen.head h4
      (Relation.ReflTransGen.head h5 (Relation.ReflTransGen.head h6
      (Relation.ReflTransGen.head h7 (Relation.ReflTransGen.single h8)))))))
  · simp only [AtMostOneHolder, at_most_one_holder]
    decide

/-- Witness instantiating every part of the amended C1 theorem at
concrete inputs, discharging each hypothesis. -/
theorem C1_bijection_amended_witness :
    BusyIffAssigned tm_init
    ∧ AtMostOneHolder (register_client 0 "u" tm_init).1
    ∧ AtMostOneHolder (remove_client "c" tm_init)
    ∧ AtMostOneHolder (mark_client_idle 0 "c" tm_init)
    ∧ AtMostOneHolder (check_timeout_tasks 0 tm_init).1
    ∧ AtMostOneHolder (handle_result 0 "c" none none tm_init)
    ∧ AtMostOneHolder
        (handle_image_result 0 "output" fs_empty thumb_none true 0 "c" "t" tm_init).1
    ∧ AtMostOneHolder (handle_status "c" "m" tm_init)
    ∧ AtMostOneHolder (mark_client_busy "c" "t" tm_init)
    ∧ AtMostOneHolder (dispatch_step 0 fs_empty thumb_none true tm_init).1
    ∧ AtMostOneHolder
        (chat_create_and_dispatch 0 true "p" "ty" "a" "r" [] tm_init).1 := by
  have hA : AtMostOneHolder tm_init := fun p hp => absurd hp (List.not_mem_nil p)
  have hQ : QueuedUnheld tm_init := fun p hp => absurd hp (List.not_mem_nil p)
  have hH : ∀ q ∈ tm_init.clients, q.2.task_id = some "t" → q.1 = "c" :=
    fun q hq => absurd hq (List.not_mem_nil q)
  have hF : ∀ q ∈ tm_init.clients,
      q.2.task_id ≠ some (new_task_id tm_init.tasks.length 0) :=
    fun q hq => absurd hq (List.not_mem_nil q)
  exact ⟨C1_bijection_amended.1 tm_init Relation.ReflTransGen.refl,
    C1_bijection_amended.2.1 0 "u" tm_init hA,
    C1_bijection_amended.2.2.1 "c" tm_init hA,
    C1_bijection_amended.2.2.2.1 0 "c" tm_init hA,
    C1_bijection_amended.2.2.2.2.1 0 tm_init hA,
    C1_bijection_amended.2.2.2.2.2.1 0 "c" none none tm_init hA,
    C1_bijection_amended.2.2.2.2.2.2.1 0 "output" fs_empty thumb_none true 0 "c" "t" tm_init hA,
    C1_bijection_amended.2.2.2.2.2.2.2.1 "c" "m" tm_init hA,
    C1_bijection_amended.2.2.2.2.2.2.2.2.1 "c" "t" tm_init hA hH,
    C1_bijection_amended.2.2.2.2.2.2.2.2.2.1 0 fs_empty thumb_none true tm_init hA hQ,
    C1_bijection_amended.2.2.2.2.2.2.2.2.2.2 0 true "p" "ty" "a" "r" [] tm_init hA hF⟩

theorem modify_task_at_self {ts : List Task} {i : Nat} {f : Task → Task} {t : Task}
    (h : ts[i]? = some t) : (modify_task_at ts i f)[i]? = some (f t) := by
  unfold modify_task_at
  rw [h]
  rw [List.getElem?_set_self (List.getElem?_eq_some.mp h).1]

theorem modify_task_at_ne {ts : List Task} {i j : Nat} {f : Task → Task}
    (h : j ≠ i) : (modify_task_at ts i f)[j]? = ts[j]? := by
  unfold modify_task_at
  cases hi : ts[i]? with
  | none => rfl
  | some t => exact List.getElem?_set_ne (Ne.symm h)

theorem first_task_idx_none {tid : String} {ts : List Task}
    (h : ∀ t ∈ ts, t.id ≠ tid) : first_task_idx tid ts = none := by
  induction ts with
  | nil => rfl
  | cons t rest ih =>
    unfold first_task_idx
    rw [if_neg (h t (by simp))]
    rw [ih (fun t' ht' => h t' (List.mem_cons_of_mem _ ht'))]
    rfl

/-- C2: a worker disconnect while a task is assigned to it requeues the
task (never fails it), removes the worker, and leaves no registered
worker holding the task's id. -/
theorem C2_disconnect_requeues (cid tid : String) (info : ClientInfo) (s : TMState)
    (hreg : dict_lookup s.clients cid = some info)
    (htid : info.task_id = some tid) (hne : tid ≠ "")
    (hnodup : ClientKeysNodup s) (hamo : AtMostOneHolder s) :
    (∀ (i : Nat) (t : Task), s.tasks[i]? = some t → t.id = tid →
      t.status = Status.assigned →
      (remove_client cid s).tasks[i]? = some { t with status := Status.queued })
    ∧ (∀ (i : Nat) (t : Task), s.tasks[i]? = some t →
      (remove_client cid s).tasks[i]? = some t ∨
      (remove_client cid s).tasks[i]? = some { t with status := Status.queued })
    ∧ dict_lookup (remove_client cid s).clients cid = none
    ∧ (∀ p ∈ (remove_client cid s).clients, p.2.task_id ≠ some tid) := by
  have hrc : remove_client cid s =
      { s with
        tasks := s.tasks.map (fun t =>
          if t.id = tid ∧ t.status = .assigned then { t with status := .queued } else t),
        clients := dict_erase s.clients cid } := by
    unfold remove_client
    rw [hreg]
    simp only [htid, if_pos hne]
  refine ⟨?_, ?_, ?_, ?_⟩
  · intro i t hi hid hst
    rw [hrc]
    simp only [List.getElem?_map, hi, Option.map_some']
    rw [if_pos ⟨hid, hst⟩]
  · intro i t hi
    rw [hrc]
    simp only [List.getElem?_map, hi, Option.map_some']
    by_cases hcond : t.id = tid ∧ t.status = Status.assigned
    · right
      rw [if_pos hcond]
    · left
      rw [if_neg hcond]
  · rw [hrc]
    exact dict_lookup_erase_self hnodup
  · intro p hp hptid
    rw [hrc] at hp
    have hp' : p ∈ s.clients := mem_dict_erase hp
    have hpk : p.1 ≠ cid := mem_dict_erase_ne hnodup hp
    have hmemc : (cid, info) ∈ s.clients := dict_lookup_some_mem hreg
    exact hpk (hamo p hp' (cid, info) hmemc (by rw [hptid]; rfl)
      (by rw [hptid, htid]))

/-- Witness for C2: worker A of the counterexample trace disconnects
while assigned; its task is requeued and the registry entry vanishes. -/
theorem C2_witness :
    (remove_client "c0_0" cx_s5).tasks[0]? =
      some { id := "task_0_0", prompt := "p", status := Status.queued,
             status_detail := "", file_ext := ".png", output_dir := none,
             client_id := some "c0_0", task_type := "Create Image",
             aspect := "16:9", resolution := "1K", reference_images := [],
             start_time := some 0, end_time := none, import_row_number := none,
             saved_path := none, output_dir_path := none, preview_base64 := none }
    ∧ dict_lookup (remove_client "c0_0" cx_s5).clients "c0_0" = none := by
  have h := C2_disconnect_requeues "c0_0" "task_0_0"
    { url := "u1", busy := true, task_id := some "task_0_0",
      page_number := 1, last_task_end := none }
    cx_s5 (by decide) (by decide) (by decide)
    (by simp only [ClientKeysNodup]; decide)
    (by simp only [AtMostOneHolder, at_most_one_holder]; decide)
  refine ⟨?_, h.2.2.1⟩
  exact h.1 0
    { id := "task_0_0", prompt := "p", status := Status.assigned,
      status_detail := "", file_ext := ".png", output_dir := none,
      client_id := some "c0_0", task_type := "Create Image",
      aspect := "16:9", resolution := "1K", reference_images := [],
      start_time := some 0, end_time := none, import_row_number := none,
      saved_path := none, output_dir_path := none, preview_base64 := none }
    (by decide) (by decide) (by decide)

/-- C4: retry succeeds exactly on an in-range index whose task is in a
failed, timed-out or save-failed status; on failure the whole state is
unchanged; on success the task is reset to queued with detail, timing
and worker binding cleared, other tasks untouched, and the cursor
rewound to the task's position when it had advanced past it. -/
theorem C4_retry (task_index : Int) (s : TMState) :
    ((retry_task task_index s).2 = true ↔
      (0 ≤ task_index ∧ task_index < (s.tasks.length : Int) ∧
        ∃ t : Task, s.tasks[task_index.toNat]? = some t ∧ retryable t.status = true))
    ∧ ((retry_task task_index s).2 = false → (retry_task task_index s).1 = s)
    ∧ (∀ t : Task, s.tasks[task_index.toNat]? = some t → retryable t.status = true →
        0 ≤ task_index → task_index < (s.tasks.length : Int) →
        (retry_task task_index s).1.tasks[task_index.toNat]? =
          some { t with status := Status.queued, status_detail := "",
                        start_time := none, end_time := none, client_id := none }
        ∧ (∀ j : Nat, j ≠ task_index.toNat →
            (retry_task task_index s).1.tasks[j]? = s.tasks[j]?)
        ∧ (retry_task task_index s).1.current_index =
            (if task_index.toNat < s.current_index then task_index.toNat
             else s.current_index)) := by
  simp only [retry_task]
  split
  · next hguard =>
    refine ⟨?_, fun _ => rfl, ?_⟩
    · refine iff_of_false (by simp) ?_
      rintro ⟨h0, hlt, -⟩
      rcases hguard with hg | hg
      · omega
      · omega
    · intro t ht hr h0 hlt
      rcases hguard with hg | hg
      · omega
      · omega
  · next hguard =>
    split
    · next heq =>
      refine ⟨?_, fun _ => rfl, ?_⟩
      · refine iff_of_false (by simp) ?_
        rintro ⟨-, -, t, ht, -⟩
        rw [heq] at ht
        exact Option.noConfusion ht
      · intro t ht hr h0 hlt
        rw [heq] at ht
        exact absurd ht (by simp)
    · next t0 heq =>
      split
      · next hr0 =>
        refine ⟨?_, ?_, ?_⟩
        · refine iff_of_true rfl ?_
          refine ⟨by omega, by omega, t0, heq, hr0⟩
        · intro h
          exact absurd h (by simp)
        · intro t ht hr h0 hlt
          have hte : t = t0 := Option.some.inj (ht.symm.trans heq)
          subst hte
          have hlen : task_index.toNat < s.tasks.length :=
            (List.getElem?_eq_some.mp heq).1
          refine ⟨?_, ?_, ?_⟩
          · split
            · exact List.getElem?_set_self hlen
            · rw [start_execution_tasks]
              exact List.getElem?_set_self hlen
          · intro j hj
            split
            · exact List.getElem?_set_ne (Ne.symm hj)
            · rw [start_execution_tasks]
              exact List.getElem?_set_ne (Ne.symm hj)
          · split
            · rfl
            · rw [start_execution_current_index]
      · next hr0 =>
        refine ⟨?_, fun _ => rfl, ?_⟩
        · refine iff_of_false (by simp) ?_
          rintro ⟨-, -, t, ht, hr⟩
          have hte : t = t0 := Option.some.inj (ht.symm.trans heq)
          subst hte
          exact hr0 hr
        · intro t ht hr h0 hlt
          have hte : t = t0 := Option.some.inj (ht.symm.trans heq)
          subst hte
          exact absurd hr hr0

/-- Witness for C4: retrying the failed task of the counterexample
trace succeeds and resets it to queued at the same position. -/
theorem C4_witness :
    (retry_task 0 cx_s6).2 = true
    ∧ (retry_task 0 cx_s6).1.tasks[0]? =
      some { id := "task_0_0", prompt := "p", status := Status.queued,
             status_detail := "", file_ext := ".png", output_dir := none,
             client_id := none, task_type := "Create Image",
             aspect := "16:9", resolution := "1K", reference_images := [],
             start_time := none, end_time := none, import_row_number := none,
             saved_path := none, output_dir_path := none, preview_base64 := none } := by
  have h := C4_retry 0 cx_s6
  constructor
  · refine h.1.mpr ⟨by decide, by decide, ?_⟩
    exact ⟨{ id := "task_0_0", prompt := "p", status := Status.failed,
             status_detail := "boom", file_ext := ".png", output_dir := none,
             client_id := some "c0_0", task_type := "Create Image",
             aspect := "16:9", resolution := "1K", reference_images := [],
             start_time := some 0, end_time := some 5, import_row_number := none,
             saved_path := none, output_dir_path := none, preview_base64 := none },
           by decide, by decide⟩
  · exact (h.2.2
      { id := "task_0_0", prompt := "p", status := Status.failed,
        status_detail := "boom", file_ext := ".png", output_dir := none,
        client_id := some "c0_0", task_type := "Create Image",
        aspect := "16:9", resolution := "1K", reference_images := [],
        start_time := some 0, end_time := some 5, import_row_number := none,
        saved_path := none, output_dir_path := none, preview_base64 := none }
      (by decide) (by decide) (by decide) (by decide)).1

/-- C5: one sweep turns every assigned task whose start time is older
than the timeout into timed_out with end time and descriptive detail
and releases its recorded worker; tasks in any non-assigned status
(timed_out in particular) are left untouched by a sweep. -/
theorem C5_timeout_sweep (now : Nat) (s : TMState) :
    (∀ (i : Nat) (t : Task) (st : Nat), s.tasks[i]? = some t →
      t.status = Status.assigned → t.start_time = some st →
      now - st > TASK_TIMEOUT_SECONDS →
      (check_timeout_tasks now s).1.tasks[i]? =
        some { t with status := Status.timed_out, end_time := some now,
                      status_detail := timeout_detail })
    ∧ (∀ t ∈ s.tasks, ∀ st : Nat, t.status = Status.assigned →
        t.start_time = some st → now - st > TASK_TIMEOUT_SECONDS →
        ∀ cid : String, t.client_id = some cid → cid ≠ "" →
        (dict_lookup s.clients cid).isSome →
        ∃ w, dict_lookup (check_timeout_tasks now s).1.clients cid = some w ∧
          w.busy = false ∧ w.task_id = none)
    ∧ (∀ (i : Nat) (t : Task), s.tasks[i]? = some t →
        t.status ≠ Status.assigned →
        (check_timeout_tasks now s).1.tasks[i]? = some t) := by
  refine ⟨?_, ?_, ?_⟩
  · intro i t st hi hst hstart hlt
    rw [check_timeout_tasks_tasks]
    simp only [List.getElem?_map, hi, Option.map_some']
    have htmo : task_timed_out now t = true := by
      simp [task_timed_out, hst, hstart]
      exact hlt
    rw [if_pos htmo]
    rfl
  · intro t hmem st hst hstart hlt cid hcid hne hreg
    have htmo : task_timed_out now t = true := by
      simp [task_timed_out, hst, hstart]
      exact hlt
    exact sweep_releases_client hmem htmo hcid hne hreg
  · intro i t hi hst
    rw [check_timeout_tasks_tasks]
    simp only [List.getElem?_map, hi, Option.map_some']
    have htmo : task_timed_out now t = false := by
      simp [task_timed_out, hst]
    rw [if_neg (by simp [htmo])]

/-- Witness for C5: at time 700, the assigned task of the trace (start
time 0) times out and its worker is released; re-sweeping the timed-out
task leaves it unchanged. -/
theorem C5_witness :
    (check_timeout_tasks 700 cx_s5).1.tasks[0]? =
      some { id := "task_0_0", prompt := "p", status := Status.timed_out,
             status_detail := timeout_detail, file_ext := ".png", output_dir := none,
             client_id := some "c0_0", task_type := "Create Image",
             aspect := "16:9", resolution := "1K", reference_images := [],
             start_time := some 0, end_time := some 700, import_row_number := none,
             saved_path := none, output_dir_path := none, preview_base64 := none }
    ∧ (∃ w, dict_lookup (check_timeout_tasks 700 cx_s5).1.clients "c0_0" = some w ∧
        w.busy = false ∧ w.task_id = none) := by
  have h := C5_timeout_sweep 700 cx_s5
  constructor
  · exact h.1 0
      { id := "task_0_0", prompt := "p", status := Status.assigned,
        status_detail := "", file_ext := ".png", output_dir := none,
        client_id := some "c0_0", task_type := "Create Image",
        aspect := "16:9", resolution := "1K", reference_images := [],
        start_time := some 0, end_time := none, import_row_number := none,
        saved_path := none, output_dir_path := none, preview_base64 := none }
      0 (by decide) (by decide) (by decide) (by decide)
  · exact h.2.1
      { id := "task_0_0", prompt := "p", status := Status.assigned,
        status_detail := "", file_ext := ".png", output_dir := none,
        client_id := some "c0_0", task_type := "Create Image",
        aspect := "16:9", resolution := "1K", reference_images := [],
        start_time := some 0, end_time := none, import_row_number := none,
        saved_path := none, output_dir_path := none, preview_base64 := none }
      (by decide) 0 (by decide) (by decide) (by decide) "c0_0"
      (by decide) (by decide) (by decide)

/-- C7: add_task rejects blank or whitespace-only prompts with no state
change; a created text-to-video task always has an empty
reference-image list; every created task is appended at the end of the
task collection with initial status queued. -/
theorem C7_add_task :
    (∀ (now : Nat) (p ty ar res : String) (refs : Option (List String))
      (od rn : Option String) (s : TMState),
      py_strip p = "" → add_task now p ty ar res refs od rn s = (s, none))
    ∧ (∀ (now : Nat) (p ty ar res : String) (refs : Option (List String))
      (od rn : Option String) (s : TMState) (t : Task),
      ty = "Text to Video" → (add_task now p ty ar res refs od rn s).2 = some t →
      t.reference_images = [])
    ∧ (∀ (now : Nat) (p ty ar res : String) (refs : Option (List String))
      (od rn : Option String) (s : TMState) (t : Task),
      (add_task now p ty ar res refs od rn s).2 = some t →
      (add_task now p ty ar res refs od rn s).1.tasks = s.tasks ++ [t] ∧
        t.status = Status.queued) := by
  refine ⟨?_, ?_, ?_⟩
  · intro now p ty ar res refs od rn s hblank
    simp [add_task, hblank]
  · intro now p ty ar res refs od rn s t hty h
    subst hty
    simp only [add_task] at h
    split at h
    · exact absurd h (by simp)
    · have := Option.some.inj h
      rw [← this]
      simp
  · intro now p ty ar res refs od rn s t h
    simp only [add_task] at h ⊢
    split at h
    · exact absurd h (by simp)
    · next hne =>
      rw [if_neg hne]
      have := Option.some.inj h
      rw [← this]
      exact ⟨rfl, rfl⟩

/-- Witness for C7: a whitespace-only prompt is rejected without any
state change, and a text-to-video enqueue with a non-empty
reference-image list yields an appended queued task whose
reference-image list is empty. -/
theorem C7_witness :
    add_task 0 "   " "Create Image" "16:9" "4K" none none none tm_init =
      (tm_init, none)
    ∧ ({ id := "task_0_5", prompt := "hi", status := Status.queued,
         status_detail := "", file_ext := ".mp4", output_dir := none,
         client_id := none, task_type := "Text to Video", aspect := "16:9",
         resolution := "1080p", reference_images := [], start_time := none,
         end_time := none, import_row_number := none, saved_path := none,
         output_dir_path := none, preview_base64 := none } : Task).reference_images = []
    ∧ (add_task 5 " hi " "Text to Video" "16:9" "1080p" (some ["X"]) none none
        tm_init).1.tasks =
      tm_init.tasks ++
        [{ id := "task_0_5", prompt := "hi", status := Status.queued,
           status_detail := "", file_ext := ".mp4", output_dir := none,
           client_id := none, task_type := "Text to Video", aspect := "16:9",
           resolution := "1080p", reference_images := [], start_time := none,
           end_time := none, import_row_number := none, saved_path := none,
           output_dir_path := none, preview_base64 := none }] := by
  refine ⟨?_, ?_, ?_⟩
  · exact C7_add_task.1 0 "   " "Create Image" "16:9" "4K" none none none tm_init
      (by decide)
  · exact C7_add_task.2.1 5 " hi " "Text to Video" "16:9" "1080p" (some ["X"])
      none none tm_init _ rfl (by decide)
  · exact (C7_add_task.2.2 5 " hi " "Text to Video" "16:9" "1080p" (some ["X"])
      none none tm_init _ (by decide)).1

/-- C9: a result message without a truthy error changes no task at all
(no status, detail or end-time write) and no scalar state; its only
effect is marking the sending registered worker idle (busy cleared,
task binding cleared, cooldown timestamp set), leaving every other
registry entry and all keys unchanged. -/
theorem C9_result_no_error (now : Nat) (cid : String) (tid err : Option String)
    (s : TMState) (info : ClientInfo)
    (herr : truthy_str err = false)
    (hreg : dict_lookup s.clients cid = some info) :
    (handle_result now cid tid err s).tasks = s.tasks
    ∧ (handle_result now cid tid err s).current_index = s.current_index
    ∧ (handle_result now cid tid err s).is_running = s.is_running
    ∧ (handle_result now cid tid err s).next_page_number = s.next_page_number
    ∧ dict_lookup (handle_result now cid tid err s).clients cid =
        some { info with busy := false, task_id := none, last_task_end := some now }
    ∧ (∀ k : String, k ≠ cid →
        dict_lookup (handle_result now cid tid err s).clients k =
          dict_lookup s.clients k)
    ∧ (handle_result now cid tid err s).clients.map Prod.fst =
        s.clients.map Prod.fst := by
  have hcond : ¬(truthy_str err = true ∧ truthy_str tid = true) := by
    intro hc
    rw [herr] at hc
    exact Bool.noConfusion hc.1
  have hs1 : handle_result now cid tid err s = mark_client_idle now cid s := by
    unfold handle_result
    rw [if_neg hcond]
  rw [hs1]
  have hsome : (dict_lookup s.clients cid).isSome := by
    rw [hreg]
    rfl
  refine ⟨mark_client_idle_tasks now cid s, (mark_client_idle_scalars now cid s).1,
    (mark_client_idle_scalars now cid s).2.1, (mark_client_idle_scalars now cid s).2.2,
    ?_, ?_, ?_⟩
  · rw [mark_client_idle_clients, if_pos hsome, dict_lookup_modify_client_self, hreg]
    rfl
  · intro k hk
    rw [mark_client_idle_clients, if_pos hsome, dict_lookup_modify_client_ne hk]
  · rw [mark_client_idle_clients, if_pos hsome, keys_modify_client]

/-- Witness for C9: a no-error result from the busy worker of the trace
leaves the task list untouched and idles the worker with a cooldown
stamp. -/
theorem C9_witness :
    (handle_result 9 "c0_0" (some "task_0_0") none cx_s5).tasks = cx_s5.tasks
    ∧ dict_lookup (handle_result 9 "c0_0" (some "task_0_0") none cx_s5).clients
        "c0_0" =
      some { url := "u1", busy := false, task_id := none, page_number := 1,
             last_task_end := some 9 } := by
  have h := C9_result_no_error 9 "c0_0" (some "task_0_0") none cx_s5
    { url := "u1", busy := true, task_id := some "task_0_0",
      page_number := 1, last_task_end := none }
    (by decide) (by decide)
  exact ⟨h.1, h.2.2.2.2.1⟩

/-- C10: a complete binary payload whose task id matches no stored task
mutates no task, attempts no file save, and still marks the sending
registered worker idle with a cooldown stamp. -/
theorem C10_unknown_task (now : Nat) (base : String) (fe : String → Bool)
    (th : String → Option String) (save_ok : Bool) (fuel : Nat)
    (cid tid : String) (s : TMState) (info : ClientInfo)
    (hmiss : ∀ t ∈ s.tasks, t.id ≠ tid)
    (hreg : dict_lookup s.clients cid = some info) :
    (handle_image_result now base fe th save_ok fuel cid tid s).2 = []
    ∧ (handle_image_result now base fe th save_ok fuel cid tid s).1.tasks = s.tasks
    ∧ (handle_image_result now base fe th save_ok fuel cid tid s).1.current_index =
        s.current_index
    ∧ (handle_image_result now base fe th save_ok fuel cid tid s).1.is_running =
        s.is_running
    ∧ dict_lookup (handle_image_result now base fe th save_ok fuel cid tid s).1.clients
        cid =
      some { info with busy := false, task_id := none, last_task_end := some now }
    ∧ (∀ k : String, k ≠ cid →
        dict_lookup (handle_image_result now base fe th save_ok fuel cid tid s).1.clients
          k = dict_lookup s.clients k) := by
  have hidx : first_task_idx tid s.tasks = none := first_task_idx_none hmiss
  have hs1 : handle_image_result now base fe th save_ok fuel cid tid s =
      (mark_client_idle now cid s, []) := by
    unfold handle_image_result
    rw [hidx]
  rw [hs1]
  have hsome : (dict_lookup s.clients cid).isSome := by
    rw [hreg]
    rfl
  refine ⟨rfl, mark_client_idle_tasks now cid s, (mark_client_idle_scalars now cid s).1,
    (mark_client_idle_scalars now cid s).2.1, ?_, ?_⟩
  · rw [mark_client_idle_clients, if_pos hsome, dict_lookup_modify_client_self, hreg]
    rfl
  · intro k hk
    rw [mark_client_idle_clients, if_pos hsome, dict_lookup_modify_client_ne hk]

/-- Witness for C10: an image payload for an unknown task id at the
trace state saves nothing, changes no task, and idles the sender. -/
theorem C10_witness :
    (handle_image_result 9 "output" fs_empty thumb_none true 3 "c0_0" "nope"
      cx_s5).2 = []
    ∧ (handle_image_result 9 "output" fs_empty thumb_none true 3 "c0_0" "nope"
        cx_s5).1.tasks = cx_s5.tasks
    ∧ dict_lookup (handle_image_result 9 "output" fs_empty thumb_none true 3
        "c0_0" "nope" cx_s5).1.clients "c0_0" =
      some { url := "u1", busy := false, task_id := none, page_number := 1,
             last_task_end := some 9 } := by
  have h := C10_unknown_task 9 "output" fs_empty thumb_none true 3 "c0_0" "nope"
    cx_s5
    { url := "u1", busy := true, task_id := some "task_0_0",
      page_number := 1, last_task_end := none }
    (by decide) (by decide)
  exact ⟨h.1, h.2.1, h.2.2.2.2.1⟩

theorem get_idle_client_lookup_isSome {now : Nat}
    {cs : List (String × ClientInfo)} {cid : String} {v : ClientInfo}
    (h : get_idle_client now cs = some (cid, v)) :
    (dict_lookup cs cid).isSome := by
  induction cs with
  | nil => simp [get_idle_client] at h
  | cons hd tl ih =>
    obtain ⟨k0, v0⟩ := hd
    by_cases hk : k0 = cid
    · subst hk
      simp [dict_lookup]
    · simp only [dict_lookup, if_neg hk]
      simp only [get_idle_client] at h
      split at h
      · exact ih h
      · split at h
        · split at h
          · exact ih h
          · exact absurd ((Prod.mk.injEq .. ▸ Option.some.inj h).1) hk
        · exact absurd ((Prod.mk.injEq .. ▸ Option.some.inj h).1) hk

theorem get_idle_client_ne_nil {now : Nat}
    {cs : List (String × ClientInfo)} {cid : String} {v : ClientInfo}
    (h : get_idle_client now cs = some (cid, v)) : cs.length ≠ 0 := by
  cases cs with
  | nil => simp [get_idle_client] at h
  | cons hd tl => simp

/-- C6: when the dispatch loop reaches an imported task whose
deterministic output file already exists, it marks the task succeeded
in place with saved path, end time and the skip detail, advances the
cursor, sends nothing, and leaves the worker registry untouched. -/
theorem C6_skip_if_exists (now : Nat) (fe : String → Bool)
    (th : String → Option String) (ok : Bool) (s : TMState) (task : Task)
    (i : Nat) (cid : String) (cinfo : ClientInfo)
    (hrun : s.is_running = true)
    (hsweep : (check_timeout_tasks now s).1 = s)
    (hnext : get_next_task s.tasks s.current_index = (some task, i))
    (hidle : get_idle_client now s.clients = some (cid, cinfo))
    (hskip : skip_file_exists fe task = true) :
    (dispatch_step now fe th ok s).2 = []
    ∧ (dispatch_step now fe th ok s).1.clients = s.clients
    ∧ (dispatch_step now fe th ok s).1.current_index = i + 1
    ∧ (dispatch_step now fe th ok s).1.tasks[i]? =
        some { task with
               status := Status.succeeded, end_time := some now,
               saved_path := some (skip_filepath task),
               output_dir_path := some (resolve_output_dir OUTPUT_DIR task.output_dir),
               status_detail := skip_detail,
               preview_base64 :=
                 if task.file_ext = ".png" ∨ task.file_ext = ".jpg"
                 then th (skip_filepath task) else task.preview_base64 }
    ∧ (∀ j : Nat, j ≠ i →
        (dispatch_step now fe th ok s).1.tasks[j]? = s.tasks[j]?) := by
  have hlen : ¬s.clients.length = 0 := get_idle_client_ne_nil hidle
  have hstep : dispatch_step now fe th ok s =
      ({ s with tasks := modify_task_at s.tasks i (stamp_skipped now th),
                current_index := i + 1 }, []) := by
    simp only [dispatch_step]
    rw [if_neg (show ¬(s.is_running = false) by simp [hrun])]
    rw [hsweep, hnext]
    simp only [if_neg hlen, hidle, if_pos hskip]
  have hti : s.tasks[i]? = some task := (get_next_task_some hnext).1
  rw [hstep]
  refine ⟨rfl, rfl, rfl, ?_, ?_⟩
  · exact modify_task_at_self hti
  · intro j hj
    exact modify_task_at_ne hj

theorem set_first_client_at {ts : List Task} {tid cid : String} {i : Nat} {t : Task}
    (hfirst : ∀ (j : Nat) (t' : Task), j < i → ts[j]? = some t' → t'.id ≠ tid)
    (hi : ts[i]? = some t) (hid : t.id = tid) :
    set_first_client tid cid ts = ts.set i { t with client_id := some cid } := by
  induction ts generalizing i with
  | nil => simp at hi
  | cons t0 rest ih =>
    cases i with
    | zero =>
      have ht0 : t0 = t := by
        simpa using hi
      subst ht0
      simp only [set_first_client, if_pos hid, List.set_cons_zero]
    | succ n =>
      have hne0 : t0.id ≠ tid :=
        hfirst 0 t0 (Nat.succ_pos n) (by simp)
      simp only [set_first_client, if_neg hne0, List.set_cons_succ]
      have hrest : set_first_client tid cid rest =
          rest.set n { t with client_id := some cid } := by
        refine ih ?_ (by simpa using hi)
        intro j t' hj hjt
        exact hfirst (j + 1) t' (Nat.succ_lt_succ hj) (by simpa using hjt)
      rw [hrest]

theorem mark_client_busy_scalars (cid tid : String) (s : TMState) :
    (mark_client_busy cid tid s).current_index = s.current_index ∧
    (mark_client_busy cid tid s).is_running = s.is_running ∧
    (mark_client_busy cid tid s).next_page_number = s.next_page_number := by
  unfold mark_client_busy
  split <;> exact ⟨rfl, rfl, rfl⟩

theorem add_task_some_append {now : Nat} {p ty ar res : String}
    {refs : Option (List String)} {od rn : Option String} {s : TMState} {t : Task}
    (h : (add_task now p ty ar res refs od rn s).2 = some t) :
    (add_task now p ty ar res refs od rn s).1.tasks = s.tasks ++ [t] := by
  simp only [add_task] at h ⊢
  split at h
  · exact absurd h (by simp)
  · next hne =>
    rw [if_neg hne]
    rw [← Option.some.inj h]

theorem modify_task_at_length (ts : List Task) (i : Nat) (f : Task → Task) :
    (modify_task_at ts i f).length = ts.length := by
  unfold modify_task_at
  cases h : ts[i]? with
  | none => rfl
  | some t => exact List.length_set ..

theorem after_tasks (sx : TMState) :
    (if sx.is_running = true then sx else start_execution sx).tasks = sx.tasks := by
  split
  · rfl
  · rw [start_execution_tasks]

theorem after_clients (sx : TMState) :
    (if sx.is_running = true then sx else start_execution sx).clients = sx.clients := by
  split
  · rfl
  · rw [start_execution_clients]

/-- C8: on a transport failure while sending a task message — in the
dispatch loop and on the best-effort immediate dispatch of the HTTP
path alike — the task is reverted to queued (it receives no failure
status) and the chosen worker is marked idle (busy cleared, binding
cleared, cooldown stamped); no message is delivered. -/
theorem C8_send_failure_requeues :
    (∀ (now : Nat) (fe : String → Bool) (th : String → Option String)
      (s : TMState) (task : Task) (i : Nat) (cid : String) (cinfo : ClientInfo),
      s.is_running = true →
      (check_timeout_tasks now s).1 = s →
      get_next_task s.tasks s.current_index = (some task, i) →
      get_idle_client now s.clients = some (cid, cinfo) →
      skip_file_exists fe task = false →
      (∀ (j : Nat) (t' : Task), j < i → s.tasks[j]? = some t' → t'.id ≠ task.id) →
      (dispatch_step now fe th false s).2 = []
      ∧ (dispatch_step now fe th false s).1.tasks[i]? =
          some { task with
                 status := Status.queued, start_time := some now,
                 client_id := some cid }
      ∧ (∀ j : Nat, j ≠ i →
          (dispatch_step now fe th false s).1.tasks[j]? = s.tasks[j]?)
      ∧ dict_lookup (dispatch_step now fe th false s).1.clients cid =
          (dict_lookup s.clients cid).map (idle_update now)
      ∧ (∀ k : String, k ≠ cid →
          dict_lookup (dispatch_step now fe th false s).1.clients k =
            dict_lookup s.clients k))
    ∧ (∀ (now : Nat) (p ty ar res : String) (imgs : List String) (s : TMState)
      (task : Task) (cid : String) (cinfo : ClientInfo),
      (add_task now p ty ar res (some imgs) none none s).2 = some task →
      get_idle_client now s.clients = some (cid, cinfo) →
      (∀ t' ∈ s.tasks, t'.id ≠ new_task_id s.tasks.length now) →
      (chat_create_and_dispatch now false p ty ar res imgs s).2.2 = []
      ∧ (chat_create_and_dispatch now false p ty ar res imgs s).1.tasks[s.tasks.length]? =
          some { task with
                 status := Status.queued, start_time := some now,
                 client_id := some cid }
      ∧ dict_lookup (chat_create_and_dispatch now false p ty ar res imgs s).1.clients
          cid = (dict_lookup s.clients cid).map (idle_update now)
      ∧ (∀ k : String, k ≠ cid →
          dict_lookup (chat_create_and_dispatch now false p ty ar res imgs s).1.clients
            k = dict_lookup s.clients k)) := by
  constructor
  · intro now fe th s task i cid cinfo hrun hsweep hnext hidle hskip hfirst
    have hlen : ¬s.clients.length = 0 := get_idle_client_ne_nil hidle
    have hlook : (dict_lookup s.clients cid).isSome :=
      get_idle_client_lookup_isSome hidle
    have hti : s.tasks[i]? = some task := (get_next_task_some hnext).1
    have hilen : i < s.tasks.length := (List.getElem?_eq_some.mp hti).1
    have hm1i : (modify_task_at s.tasks i (fun t =>
        { t with status := Status.assigned, start_time := some now }))[i]? =
        some { task with status := Status.assigned, start_time := some now } :=
      modify_task_at_self hti
    have hset : set_first_client task.id cid
        (modify_task_at s.tasks i (fun t =>
          { t with status := Status.assigned, start_time := some now })) =
        (modify_task_at s.tasks i (fun t =>
          { t with status := Status.assigned, start_time := some now })).set i
          { task with status := Status.assigned, start_time := some now,
                      client_id := some cid } := by
      refine set_first_client_at ?_ hm1i rfl
      intro j t' hj hjt
      rw [modify_task_at_ne (Nat.ne_of_lt hj)] at hjt
      exact hfirst j t' hj hjt
    refine ⟨?_, ?_, ?_, ?_, ?_⟩
    · simp only [dispatch_step]
      rw [if_neg (show ¬(s.is_running = false) by simp [hrun])]
      rw [hsweep, hnext]
      simp only [if_neg hlen, hidle, hskip, Bool.false_eq_true, if_false]
    · simp only [dispatch_step]
      rw [if_neg (show ¬(s.is_running = false) by simp [hrun])]
      rw [hsweep, hnext]
      simp only [if_neg hlen, hidle, hskip, Bool.false_eq_true, if_false,
        mark_client_idle_tasks, mark_client_busy_tasks, hlook, if_true, hset]
      have hXi : ((modify_task_at s.tasks i (fun t =>
          { t with status := Status.assigned, start_time := some now })).set i
          { task with status := Status.assigned, start_time := some now,
                      client_id := some cid })[i]? =
          some { task with status := Status.assigned, start_time := some now,
                           client_id := some cid } := by
        refine List.getElem?_set_self ?_
        rw [modify_task_at_length]
        exact hilen
      rw [modify_task_at_self hXi]
    · intro j hj
      simp only [dispatch_step]
      rw [if_neg (show ¬(s.is_running = false) by simp [hrun])]
      rw [hsweep, hnext]
      simp only [if_neg hlen, hidle, hskip, Bool.false_eq_true, if_false,
        mark_client_idle_tasks, mark_client_busy_tasks, hlook, if_true, hset]
      rw [modify_task_at_ne hj, List.getElem?_set_ne (Ne.symm hj),
        modify_task_at_ne hj]
    · simp only [dispatch_step]
      rw [if_neg (show ¬(s.is_running = false) by simp [hrun])]
      rw [hsweep, hnext]
      simp only [if_neg hlen, hidle, hskip, Bool.false_eq_true, if_false,
        mark_client_idle_clients, mark_client_busy_clients, hlook, if_true]
      have hbk : (dict_lookup (modify_client cid (busy_update task.id) s.clients)
          cid).isSome := by
        rw [dict_lookup_modify_client_self]
        simpa using hlook
      rw [if_pos hbk, dict_lookup_modify_client_self, dict_lookup_modify_client_self]
      obtain ⟨v0, hv0⟩ := Option.isSome_iff_exists.mp hlook
      rw [hv0]
      rfl
    · intro k hk
      simp only [dispatch_step]
      rw [if_neg (show ¬(s.is_running = false) by simp [hrun])]
      rw [hsweep, hnext]
      simp only [if_neg hlen, hidle, hskip, Bool.false_eq_true, if_false,
        mark_client_idle_clients, mark_client_busy_clients, hlook, if_true]
      have hbk : (dict_lookup (modify_client cid (busy_update task.id) s.clients)
          cid).isSome := by
        rw [dict_lookup_modify_client_self]
        simpa using hlook
      rw [if_pos hbk, dict_lookup_modify_client_ne hk,
        dict_lookup_modify_client_ne hk]
  · intro now p ty ar res imgs s task cid cinfo htask hidle hids
    have hlen : ¬s.clients.length = 0 := get_idle_client_ne_nil hidle
    have hlook : (dict_lookup s.clients cid).isSome :=
      get_idle_client_lookup_isSome hidle
    have happ : (add_task now p ty ar res (some imgs) none none s).1.tasks =
        s.tasks ++ [task] := add_task_some_append htask
    have hid : task.id = new_task_id s.tasks.length now := add_task_some_id htask
    have hlen2 : (s.tasks ++ [task]).length - 1 = s.tasks.length := by
      simp
    have hti : (s.tasks ++ [task])[s.tasks.length]? = some task :=
      List.getElem?_concat_length _ _
    have hset : set_first_client task.id cid
        (modify_task_at (s.tasks ++ [task]) s.tasks.length (fun t =>
          { t with status := Status.assigned, start_time := some now })) =
        (modify_task_at (s.tasks ++ [task]) s.tasks.length (fun t =>
          { t with status := Status.assigned, start_time := some now })).set
          s.tasks.length
          { task with status := Status.assigned, start_time := some now,
                      client_id := some cid } := by
      refine set_first_client_at ?_ (modify_task_at_self hti) rfl
      intro j t' hj hjt
      rw [modify_task_at_ne (Nat.ne_of_lt hj)] at hjt
      rw [List.getElem?_append, if_pos hj] at hjt
      rw [hid]
      exact hids t' (List.getElem?_mem hjt)
    refine ⟨?_, ?_, ?_, ?_⟩
    · simp only [chat_create_and_dispatch]
      rw [if_neg hlen]
      simp only [htask, add_task_clients, hidle, Bool.false_eq_true, if_false]
    · simp only [chat_create_and_dispatch]
      rw [if_neg hlen]
      simp only [htask, add_task_clients, hidle, Bool.false_eq_true, if_false,
        after_tasks, mark_client_idle_tasks, mark_client_busy_tasks,
        add_task_clients, hlook, if_true, hlen2, happ, hset]
      have hXi : ((modify_task_at (s.tasks ++ [task]) s.tasks.length (fun t =>
          { t with status := Status.assigned, start_time := some now })).set
          s.tasks.length
          { task with status := Status.assigned, start_time := some now,
                      client_id := some cid })[s.tasks.length]? =
          some { task with status := Status.assigned, start_time := some now,
                           client_id := some cid } := by
        refine List.getElem?_set_self ?_
        rw [modify_task_at_length]
        simp
      rw [modify_task_at_self hXi]
    · simp only [chat_create_and_dispatch]
      rw [if_neg hlen]
      simp only [htask, add_task_clients, hidle, Bool.false_eq_true, if_false,
        after_clients, mark_client_idle_clients, mark_client_busy_clients,
        add_task_clients, hlook, if_true]
      have hbk : (dict_lookup (modify_client cid (busy_update task.id) s.clients)
          cid).isSome := by
        rw [dict_lookup_modify_client_self]
        simpa using hlook
      rw [if_pos hbk, dict_lookup_modify_client_self, dict_lookup_modify_client_self]
      obtain ⟨v0, hv0⟩ := Option.isSome_iff_exists.mp hlook
      rw [hv0]
      rfl
    · intro k hk
      simp only [chat_create_and_dispatch]
      rw [if_neg hlen]
      simp only [htask, add_task_clients, hidle, Bool.false_eq_true, if_false,
        after_clients, mark_client_idle_clients, mark_client_busy_clients,
        add_task_clients, hlook, if_true]
      have hbk : (dict_lookup (modify_client cid (busy_update task.id) s.clients)
          cid).isSome := by
        rw [dict_lookup_modify_client_self]
        simpa using hlook
      rw [if_pos hbk, dict_lookup_modify_client_ne hk,
        dict_lookup_modify_client_ne hk]

/-- Witness for C6: dispatching the imported demo task (row 7, file
already present) delivers no message, advances the cursor and leaves
the registry untouched. -/
theorem C6_witness :
    (dispatch_step 5 fs_only_7png thumb_const true skip_demo_state).2 = []
    ∧ (dispatch_step 5 fs_only_7png thumb_const true skip_demo_state).1.clients =
        skip_demo_state.clients
    ∧ (dispatch_step 5 fs_only_7png thumb_const true skip_demo_state).1.current_index =
        1 := by
  have h := C6_skip_if_exists 5 fs_only_7png thumb_const true skip_demo_state
    { id := "task_0_0", prompt := "hello", status := Status.queued,
      status_detail := "", file_ext := ".png", output_dir := none,
      client_id := none, task_type := "Create Image", aspect := "16:9",
      resolution := "4K", reference_images := [], start_time := none,
      end_time := none, import_row_number := some "7", saved_path := none,
      output_dir_path := none, preview_base64 := none }
    0 "c0_0"
    { url := "u1", busy := false, task_id := none, page_number := 1,
      last_task_end := none }
    (by decide) (by decide) (by decide) (by decide) (by decide)
  exact ⟨h.1, h.2.1, h.2.2.1⟩

/-- Witness for C8: a failed send in the demo dispatch delivers nothing,
reverts the task to queued with the worker binding recorded, and idles
the worker with a cooldown stamp; the chat path behaves the same on a
fresh state with two idle workers. -/
theorem C8_witness :
    (dispatch_step 5 fs_empty thumb_none false send_fail_demo_state).2 = []
    ∧ (dispatch_step 5 fs_empty thumb_none false send_fail_demo_state).1.tasks[0]? =
      some { id := "task_0_0", prompt := "hi", status := Status.queued,
             status_detail := "", file_ext := ".png", output_dir := none,
             client_id := some "c0_0", task_type := "Create Image",
             aspect := "16:9", resolution := "4K", reference_images := [],
             start_time := some 5, end_time := none, import_row_number := none,
             saved_path := none, output_dir_path := none, preview_base64 := none }
    ∧ (chat_create_and_dispatch 7 false "pp" "Create Image" "16:9" "1K" []
        cx_s2).2.2 = []
    ∧ (chat_create_and_dispatch 7 false "pp" "Create Image" "16:9" "1K" []
        cx_s2).1.tasks[0]? =
      some { id := "task_0_7", prompt := "pp", status := Status.queued,
             status_detail := "", file_ext := ".png", output_dir := none,
             client_id := some "c0_0", task_type := "Create Image",
             aspect := "16:9", resolution := "1K", reference_images := [],
             start_time := some 7, end_time := none, import_row_number := none,
             saved_path := none, output_dir_path := none, preview_base64 := none } := by
  have h1 := C8_send_failure_requeues.1 5 fs_empty thumb_none send_fail_demo_state
    { id := "task_0_0", prompt := "hi", status := Status.queued,
      status_detail := "", file_ext := ".png", output_dir := none,
      client_id := none, task_type := "Create Image", aspect := "16:9",
      resolution := "4K", reference_images := [], start_time := none,
      end_time := none, import_row_number := none, saved_path := none,
      output_dir_path := none, preview_base64 := none }
    0 "c0_0"
    { url := "u1", busy := false, task_id := none, page_number := 1,
      last_task_end := none }
    (by decide) (by decide) (by decide) (by decide) (by decide)
    (fun j t' hj _ => absurd hj (Nat.not_lt_zero j))
  have h2 := C8_send_failure_requeues.2 7 "pp" "Create Image" "16:9" "1K" []
    cx_s2
    { id := "task_0_7", prompt := "pp", status := Status.queued,
      status_detail := "", file_ext := ".png", output_dir := none,
      client_id := none, task_type := "Create Image", aspect := "16:9",
      resolution := "1K", reference_images := [], start_time := none,
      end_time := none, import_row_number := none, saved_path := none,
      output_dir_path := none, preview_base64 := none }
    "c0_0"
    { url := "u1", busy := false, task_id := none, page_number := 1,
      last_task_end := none }
    (by decide) (by decide) (by decide)
  exact ⟨h1.1, h1.2.1, h2.1, h2.2.1⟩

theorem idict_lookup_map_mem {payloads : Nat → String} {l : List Nat} {j : Nat}
    (hj : j ∈ l) :
    idict_lookup (l.map (fun (m : Nat) => ((m : Int), payloads m))) (j : Int) =
      some (payloads j) := by
  induction l with
  | nil => simp at hj
  | cons a l ih =>
    by_cases haj : a = j
    · subst haj
      simp [idict_lookup]
    · rcases List.mem_cons.mp hj with rfl | hj'
      · exact absurd rfl haj
      · simp only [List.map_cons, idict_lookup]
        rw [if_neg (by exact_mod_cast haj)]
        exact ih hj'

theorem idict_lookup_map_not_mem {payloads : Nat → String} {l : List Nat} {j : Nat}
    (hj : j ∉ l) :
    idict_lookup (l.map (fun (m : Nat) => ((m : Int), payloads m))) (j : Int) = none := by
  induction l with
  | nil => rfl
  | cons a l ih =>
    simp only [List.mem_cons, not_or] at hj
    simp only [List.map_cons, idict_lookup]
    rw [if_neg (by exact_mod_cast (Ne.symm hj.1))]
    exact ih hj.2

theorem idict_insert_absent {m : List (Int × String)} {k : Int} {v : String}
    (h : idict_lookup m k = none) : idict_insert m k v = m ++ [(k, v)] := by
  induction m with
  | nil => rfl
  | cons hd tl ih =>
    obtain ⟨k0, v0⟩ := hd
    by_cases hk : k0 = k
    · simp [idict_lookup, hk] at h
    · simp only [idict_lookup, if_neg hk] at h
      simp only [idict_insert, if_neg hk, List.cons_append]
      exact congrArg _ (ih h)

theorem int_range_natCast (n : Nat) :
    int_range (n : Int) = (List.range n).map (fun j : Nat => (j : Int)) := by
  unfold int_range
  rw [Int.toNat_natCast]
  rfl

theorem deliver_chunks_cons (buf : ChunkBuffer) (tid : String) (n : Nat)
    (payloads : Nat → String) (i : Nat) (rest : List Nat) :
    deliver_chunks buf tid n payloads (i :: rest) =
      ((deliver_chunks
          (image_chunk_step buf (some tid) (i : Int) (n : Int) (some (payloads i))).1
          tid n payloads rest).1,
        (image_chunk_step buf (some tid) (i : Int) (n : Int) (some (payloads i))).2 ::
          (deliver_chunks
            (image_chunk_step buf (some tid) (i : Int) (n : Int) (some (payloads i))).1
            tid n payloads rest).2) := by
  rfl

theorem lookup_all_map_cast {l : List Nat} {payloads : Nat → String}
    {m : List (Int × String)}
    (h : ∀ j ∈ l, idict_lookup m (j : Int) = some (payloads j)) :
    lookup_all m (l.map (fun j : Nat => (j : Int))) = some (l.map payloads) := by
  induction l with
  | nil => rfl
  | cons a l ih =>
    simp only [List.map_cons, lookup_all, h a (by simp)]
    rw [ih (fun j hj => h j (List.mem_cons_of_mem _ hj))]
    rfl

theorem dict_lookup_append_left_none {β : Type} {a l : List (String × β)} {k : String}
    (h : dict_lookup a k = none) : dict_lookup (a ++ l) k = dict_lookup l k := by
  induction a with
  | nil => rfl
  | cons hd tl ih =>
    obtain ⟨k0, v0⟩ := hd
    by_cases hk : k0 = k
    · simp [dict_lookup, hk] at h
    · simp only [dict_lookup, if_neg hk] at h
      simp only [List.cons_append, dict_lookup, if_neg hk]
      exact ih h

theorem dict_insert_append {β : Type} {a : List (String × β)} {k : String} {x y : β}
    (h : dict_lookup a k = none) :
    dict_insert (a ++ [(k, x)]) k y = a ++ [(k, y)] := by
  induction a with
  | nil => simp [dict_insert]
  | cons hd tl ih =>
    obtain ⟨k0, v0⟩ := hd
    by_cases hk : k0 = k
    · simp [dict_lookup, hk] at h
    · simp only [dict_lookup, if_neg hk] at h
      simp only [List.cons_append, dict_insert, if_neg hk]
      exact congrArg _ (ih h)

theorem dict_erase_append {β : Type} {a : List (String × β)} {k : String} {x : β}
    (h : dict_lookup a k = none) : dict_erase (a ++ [(k, x)]) k = a := by
  induction a with
  | nil => simp [dict_erase]
  | cons hd tl ih =>
    obtain ⟨k0, v0⟩ := hd
    by_cases hk : k0 = k
    · simp [dict_lookup, hk] at h
    · simp only [dict_lookup, if_neg hk] at h
      simp only [List.cons_append, dict_erase, if_neg hk]
      exact congrArg _ (ih h)

theorem dict_insert_fresh {β : Type} {a : List (String × β)} {k : String} {v : β}
    (h : dict_lookup a k = none) : dict_insert a k v = a ++ [(k, v)] := by
  induction a with
  | nil => rfl
  | cons hd tl ih =>
    obtain ⟨k0, v0⟩ := hd
    by_cases hk : k0 = k
    · simp [dict_lookup, hk] at h
    · simp only [dict_lookup, if_neg hk] at h
      simp only [dict_insert, if_neg hk, List.cons_append]
      exact congrArg _ (ih h)

theorem deliver_chunks_go (tid : String) (htid : tid ≠ "") (n : Nat)
    (payloads : Nat → String) (rest : List Nat) :
    ∀ (seen : List Nat) (buf0 buf : ChunkBuffer),
    dict_lookup buf0 tid = none →
    (buf = buf0 ++ [(tid, seen.map (fun (m : Nat) => ((m : Int), payloads m)))] ∨
      (seen = [] ∧ buf = buf0)) →
    (seen ++ rest).Nodup →
    List.Perm (seen ++ rest) (List.range n) →
    rest ≠ [] →
    deliver_chunks buf tid n payloads rest =
      (buf0, List.replicate (rest.length - 1) ChunkOutcome.pending ++
        [ChunkOutcome.completed (String.join ((List.range n).map payloads))]) := by
  induction rest with
  | nil =>
    intro seen buf0 buf h0 hbuf hnd hperm hne
    exact absurd rfl hne
  | cons i rest ih =>
    intro seen buf0 buf h0 hbuf hnd hperm hne
    have hmval : dict_lookup buf tid =
        some (seen.map (fun (m : Nat) => ((m : Int), payloads m))) ∨
        (seen = [] ∧ dict_lookup buf tid = none) := by
      rcases hbuf with hbuf | ⟨hseen, hbuf⟩
      · left
        rw [hbuf, dict_lookup_append_left_none h0]
        simp [dict_lookup]
      · right
        exact ⟨hseen, by rw [hbuf]; exact h0⟩
    have hm : (dict_lookup buf tid).getD [] =
        seen.map (fun (m : Nat) => ((m : Int), payloads m)) := by
      rcases hmval with hv | ⟨hseen, hv⟩
      · rw [hv]
        rfl
      · rw [hv, hseen]
        rfl
    have hdisj := (List.nodup_append.mp hnd).2.2
    have hinotseen : i ∉ seen := fun hmem => hdisj hmem (List.mem_cons_self i rest)
    have hlk : idict_lookup (seen.map (fun (m : Nat) => ((m : Int), payloads m))) (i : Int) =
        none := idict_lookup_map_not_mem hinotseen
    have hm' : idict_insert (seen.map (fun (m : Nat) => ((m : Int), payloads m))) (i : Int)
        (payloads i) = (seen ++ [i]).map (fun (m : Nat) => ((m : Int), payloads m)) := by
      rw [idict_insert_absent hlk]
      simp
    have hbuf' : dict_insert buf tid
        ((seen ++ [i]).map (fun (m : Nat) => ((m : Int), payloads m))) =
        buf0 ++ [(tid, (seen ++ [i]).map (fun (m : Nat) => ((m : Int), payloads m)))] := by
      rcases hbuf with hbuf | ⟨hseen, hbuf⟩
      · rw [hbuf, dict_insert_append h0]
      · rw [hbuf, dict_insert_fresh h0]
    have hlen_total : seen.length + 1 + rest.length = n := by
      have hle := hperm.length_eq
      simp at hle
      omega
    cases rest with
    | nil =>
      have hfull : image_chunk_step buf (some tid) (i : Int) (n : Int)
          (some (payloads i)) =
          (buf0, ChunkOutcome.completed
            (String.join ((List.range n).map payloads))) := by
        simp only [image_chunk_step]
        rw [if_neg htid, hm]
        simp only [Option.getD_some]
        rw [hm']
        have hsl : seen.length + 1 = n := by
          simpa using hlen_total
        have hcond : (n : Int) > 0 ∧
            ((((seen ++ [i]).map (fun (m : Nat) => ((m : Int), payloads m))).length : Int) =
              (n : Int)) := by
          constructor
          · exact_mod_cast Nat.pos_of_ne_zero (by omega)
          · rw [List.length_map]
            simp only [List.length_append, List.length_cons, List.length_nil]
            exact_mod_cast hsl
        rw [if_pos hcond]
        have hall : ∀ j ∈ List.range n,
            idict_lookup ((seen ++ [i]).map (fun (m : Nat) => ((m : Int), payloads m)))
              (j : Int) = some (payloads j) := by
          intro j hj
          exact idict_lookup_map_mem ((hperm.mem_iff).mpr hj)
        have hjoin : join_chunks
            ((seen ++ [i]).map (fun (m : Nat) => ((m : Int), payloads m))) (n : Int) =
            some (String.join ((List.range n).map payloads)) := by
          unfold join_chunks
          rw [int_range_natCast, lookup_all_map_cast hall]
          rfl
        rw [hjoin, hbuf', dict_erase_append h0]
      simp only [deliver_chunks]
      rw [hfull]
      simp [deliver_chunks]
    | cons i2 rest' =>
      have hpend : image_chunk_step buf (some tid) (i : Int) (n : Int)
          (some (payloads i)) =
          (buf0 ++ [(tid, (seen ++ [i]).map (fun (m : Nat) => ((m : Int), payloads m)))],
            ChunkOutcome.pending) := by
        simp only [image_chunk_step]
        rw [if_neg htid, hm]
        simp only [Option.getD_some]
        rw [hm']
        have hcond : ¬((n : Int) > 0 ∧
            ((((seen ++ [i]).map (fun (m : Nat) => ((m : Int), payloads m))).length : Int) =
              (n : Int))) := by
          rintro ⟨-, hlen⟩
          rw [List.length_map] at hlen
          simp only [List.length_append, List.length_cons, List.length_nil] at hlen
          have : seen.length + 1 = n := by
            exact_mod_cast hlen
          simp only [List.length_cons] at hlen_total
          omega
        rw [if_neg hcond, hbuf']
      have hli : (seen ++ [i]) ++ i2 :: rest' = seen ++ i :: i2 :: rest' := by
        simp
      have hrec := ih (seen ++ [i]) buf0
        (buf0 ++ [(tid, (seen ++ [i]).map (fun (m : Nat) => ((m : Int), payloads m)))])
        h0 (Or.inl rfl) (by rw [hli]; exact hnd) (by rw [hli]; exact hperm)
        (by simp)
      rw [deliver_chunks_cons, hpend]
      simp only [hrec]
      simp [List.replicate_succ]


/-- C3: For every task id, declared chunk count n > 0, and payload assignment
for indices 0..n-1, delivering the image_chunk messages in any order that is a
permutation of 0..n-1 yields, once the last chunk arrives, the completed
payload obtained by joining the chunks in increasing index order — identical
to what in-order delivery yields — and the reassembly buffer reverts to its
initial state, which has no entry for the task. -/
theorem C3_chunk_reassembly (tid : String) (n : Nat) (payloads : Nat → String)
    (order : List Nat) (buf0 : ChunkBuffer)
    (htid : tid ≠ "") (hn : 0 < n)
    (hperm : List.Perm order (List.range n))
    (hfresh : dict_lookup buf0 tid = none) :
    deliver_chunks buf0 tid n payloads order =
      (buf0, List.replicate (order.length - 1) ChunkOutcome.pending ++
        [ChunkOutcome.completed (String.join ((List.range n).map payloads))]) ∧
    dict_lookup (deliver_chunks buf0 tid n payloads order).1 tid = none ∧
    (deliver_chunks buf0 tid n payloads order).2.getLast? =
      (deliver_chunks buf0 tid n payloads (List.range n)).2.getLast? := by
  have hnd : order.Nodup := (hperm.nodup_iff).mpr (List.nodup_range n)
  have hlen := hperm.length_eq
  rw [List.length_range] at hlen
  have hne : order ≠ [] := by
    intro h
    rw [h] at hlen
    simp at hlen
    omega
  have hne2 : List.range n ≠ [] := by
    intro h
    have := congrArg List.length h
    rw [List.length_range] at this
    simp at this
    omega
  have main := deliver_chunks_go tid htid n payloads order [] buf0 buf0 hfresh
    (Or.inr ⟨rfl, rfl⟩) hnd hperm hne
  have main2 := deliver_chunks_go tid htid n payloads (List.range n) [] buf0 buf0
    hfresh (Or.inr ⟨rfl, rfl⟩) (List.nodup_range n) (List.Perm.refl _) hne2
  refine ⟨main, ?_, ?_⟩
  · rw [main]
    exact hfresh
  · rw [main, main2]
    simp [List.getLast?_concat]

theorem C3_witness :
    ("t" : String) ≠ "" ∧ 0 < 3 ∧
    List.Perm [2, 0, 1] (List.range 3) ∧
    (deliver_chunks [] "t" 3 (fun i => toString i) [2, 0, 1] =
      ([], List.replicate 2 ChunkOutcome.pending ++
        [ChunkOutcome.completed
          (String.join ((List.range 3).map (fun i => toString i)))]) ∧
      dict_lookup (deliver_chunks [] "t" 3 (fun i => toString i) [2, 0, 1]).1 "t" =
        none ∧
      (deliver_chunks [] "t" 3 (fun i => toString i) [2, 0, 1]).2.getLast? =
        (deliver_chunks [] "t" 3 (fun i => toString i) (List.range 3)).2.getLast?) :=
  ⟨by decide, by decide, by decide,
    C3_chunk_reassembly "t" 3 (fun i => toString i) [2, 0, 1] []
      (by decide) (by decide) (by decide) rfl⟩

end Veo3
